import Mathlib

/-!
Verification development for the gull-notes key-management and
envelope-encryption core.

The development shallowly embeds the TypeScript sources
(`src/lib/services/encryption.ts`, `src/lib/services/vaults.ts`,
`src/lib/services/webauthn.ts`, `src/lib/db.ts`) in Lean:

* WebCrypto AES-GCM is modelled as an ideal authenticated cipher: a
  ciphertext is a symbolic record of the key material, the IV and the
  plaintext that produced it, and `crypto.subtle.decrypt` succeeds exactly
  when it is given the same key material and the same IV (any mismatch is
  the AEAD authentication failure `OperationError`).
* Random byte strings (`crypto.getRandomValues`) and generated keys are
  drawn from a monotone counter threaded through the state, so successive
  draws are distinct, and each byte string records its length.
* `JSON.stringify` / `TextEncoder.encode` of a serializable payload is
  modelled as the injective constructor `Plaintext.json`, and
  `JSON.parse` / `TextDecoder.decode` as the partial inverse match on that
  constructor (parsing the raw bytes of an exported key fails, as real
  `JSON.parse` does on such data).
* The IndexedDB/Dexie record stores are a map from database name to a
  store of note records and settings records; `put` upserts by primary
  key, `add` throws `ConstraintError` on a duplicate key, and a database
  springs into existence on its first write.
* Asynchronous code is logically sequential (one protocol run at a time),
  so `async/await` is modelled by sequencing in a state-plus-exception
  monad `M`; a thrown JS `Error` is an `Except.error` carrying a
  `JsError` value whose `message` is the thrown message string.
* `indexedDB.deleteDatabase` may fail at the platform level; the set of
  database names whose deletion request fails is part of the world state
  (`deleteBroken`), which lets the rollback path of the password-rotation
  protocol be analysed under cleanup failure.
-/

namespace GullNotes

/-- A symbolic random byte string: its length in bytes and the identity of
the entropy draw that produced it.  Two byte strings are equal exactly when
they come from the same draw and have the same length. -/
structure Bytes where
  length : Nat
  draw : Nat
deriving DecidableEq, Repr, Inhabited

/-- Symbolic key material of a WebCrypto `CryptoKey`.
`derived password salt` is the PBKDF2-SHA-256 (600000 iterations) result of
`deriveMasterKey`; determinism of PBKDF2 is captured by making the material
a function of `(password, salt)`.  `random draw` is a key produced by
`crypto.subtle.generateKey`. -/
inductive KeyMaterial where
  | derived (password : String) (salt : Bytes)
  | random (draw : Nat)
deriving DecidableEq, Repr, Inhabited

/-- A WebCrypto `CryptoKey` handle: its key material plus the
`extractable` flag it was created with. -/
structure CryptoKey where
  material : KeyMaterial
  extractable : Bool
deriving DecidableEq, Repr, Inhabited

/-- `DecryptedMetadata` from `types.ts`: `{ title, tags, color? }`. -/
structure DecryptedMetadata where
  title : String
  tags : List String
  color : Option String
deriving DecidableEq, Repr, Inhabited

/-- `DecryptedContent` from `types.ts`: `{ body, attachments? }`. -/
structure DecryptedContent where
  body : String
  attachments : Option (List String)
deriving DecidableEq, Repr, Inhabited

/-- A JSON-serializable payload passed to `encryptData`: either the
lightweight metadata of a note or its heavy content (`types.ts`). -/
inductive Payload where
  | meta (m : DecryptedMetadata)
  | content (c : DecryptedContent)
deriving DecidableEq, Repr, Inhabited

/-- The byte string handed to `crypto.subtle.encrypt`: either the UTF-8
encoding of `JSON.stringify` of a payload, or the raw bytes of an exported
key (`crypto.subtle.exportKey('raw', k)`).  JSON encoding of serializable
payloads is injective, which the constructor captures. -/
inductive Plaintext where
  | json (p : Payload)
  | rawKey (m : KeyMaterial)
deriving DecidableEq, Repr, Inhabited

/-- `TextDecoder.decode` followed by `JSON.parse`: succeeds only on bytes
that are a JSON encoding (raw key bytes make `JSON.parse` throw). -/
def Plaintext.asJson : Plaintext → Option Payload
  | .json p => some p
  | .rawKey _ => none

/-- An AES-GCM ciphertext, modelled ideally: it records the key material
and IV under which it was produced together with the plaintext.
Decryption checks the key material and the IV (wrong key, wrong IV,
corruption and tag tampering all surface as the single WebCrypto
`OperationError`). -/
structure Ciphertext where
  keyMat : KeyMaterial
  iv : Bytes
  plain : Plaintext
deriving DecidableEq, Repr, Inhabited

/-- `EncryptedNote` from `types.ts`: the persisted shape of one note. -/
structure EncryptedNote where
  id : String
  metaCipher : Ciphertext
  metaIv : Bytes
  contentCipher : Ciphertext
  contentIv : Bytes
  createdAt : Nat
  updatedAt : Nat
  schemaVersion : Nat
deriving DecidableEq, Repr, Inhabited

/-- `VaultMetadata` from `types.ts`: `{ name, createdAt }`. -/
structure VaultMetadata where
  name : String
  createdAt : Nat
deriving DecidableEq, Repr, Inhabited

/-- `EncryptedKeyData` from `types.ts`: the persisted Wrapped Key Record
`{ encryptedKey, keyIv, salt }`. -/
structure EncryptedKeyData where
  encryptedKey : Ciphertext
  keyIv : Bytes
  salt : Bytes
deriving DecidableEq, Repr, Inhabited

/-- `WebAuthnCredential`: one credential-wrapped copy of the Data Key,
with the fields used by `webauthn.ts` and its tests. -/
structure WebAuthnCredential where
  id : String
  name : String
  createdAt : Nat
  lastUsedAt : Nat
  encryptedDataKey : Ciphertext
  dataKeyIv : Bytes
deriving DecidableEq, Repr, Inhabited

/-- The `data` field of a settings record.  The code stores, under fixed
ids, the vault metadata, the wrapped key record, the passkey credential
list, and other auxiliary records (e.g. the folder structure), which are
copied verbatim during rotation and are modelled opaquely by `rawData`. -/
inductive SettingData where
  | metadata (m : VaultMetadata)
  | keyData (k : EncryptedKeyData)
  | credentials (cs : List WebAuthnCredential)
  | rawData (s : String)
deriving DecidableEq, Repr, Inhabited

/-- One vault database (`db.ts`): a `notes` table keyed by `id` and a
`settings` table keyed by `id`, both kept in insertion order. -/
structure Store where
  notes : List EncryptedNote
  settings : List (String × SettingData)
deriving DecidableEq, Repr, Inhabited

/-- The empty store a database starts from. -/
def Store.empty : Store := ⟨[], []⟩

/-- The world state: the IndexedDB databases by name, the process-wide
session key manager, the entropy counter backing `crypto.getRandomValues`
/ `generateKey` / `randomUUID` / `Math.random`, the clock behind
`Date.now()`, the set of database names whose `deleteDatabase` request
fails at the platform level, and the trace of `onProgress` callbacks. -/
structure World where
  databases : List (String × Store)
  sessionKey : Option CryptoKey
  rng : Nat
  now : Nat
  deleteBroken : List String
  progress : List (Nat × Nat)
deriving DecidableEq, Repr, Inhabited

/-- Errors thrown by the embedded code, one constructor per throw site
(a JS `Error` is re-thrown by identity, so the constructor identifies the
originating site; `message` below gives the carried string). -/
inductive JsError where
  | passwordEmpty
  | passwordTooShort
  | bufferEmpty (nm : String)
  | webCryptoOperationError
  | jsonParseError
  | importKeyDataError
  | decryptionFailed
  | failedToDecryptDataKey
  | invalidPassword
  | vaultDataKeyNotFound
  | currentPasswordIncorrect
  | vaultMetadataNotFound
  | noteCountMismatch (original newCount : Nat)
  | missingNotes (ids : List String)
  | sessionKeyUnavailable
  | noteDecryptFailed (id : String)
  | constraintError
  | deleteDatabaseFailed
deriving DecidableEq, Repr

/-- The `message` string of each thrown `Error`, as written in the source. -/
def JsError.message : JsError → String
  | .passwordEmpty => "Password must be a non-empty string"
  | .passwordTooShort => "Password must be at least 8 characters"
  | .bufferEmpty nm => nm ++ " cannot be empty"
  | .webCryptoOperationError => "OperationError"
  | .jsonParseError => "SyntaxError: unexpected JSON input"
  | .importKeyDataError => "DataError"
  | .decryptionFailed => "Decryption failed"
  | .failedToDecryptDataKey => "Failed to decrypt data key"
  | .invalidPassword => "Invalid password"
  | .vaultDataKeyNotFound => "Vault data key not found"
  | .currentPasswordIncorrect => "Current password is incorrect"
  | .vaultMetadataNotFound => "Vault metadata not found"
  | .noteCountMismatch original newCount =>
      "Note count mismatch! Original: " ++ toString original ++ ", New: " ++
        toString newCount ++ ". Aborting to prevent data loss."
  | .missingNotes ids =>
      "Missing " ++ toString ids.length ++ " note(s) in new vault! IDs: " ++
        String.intercalate ", " ids ++ ". Aborting."
  | .sessionKeyUnavailable => "Session key not available after vault open"
  | .noteDecryptFailed id =>
      "Failed to decrypt note " ++ id ++ " in new vault. Encryption may have failed."
  | .constraintError => "ConstraintError"
  | .deleteDatabaseFailed => "deleteDatabase failed"

/-- The state-plus-exception monad in which the embedded code runs: a
computation transforms the world and either returns a value or a thrown
`JsError` (the world at the moment of the throw is kept, as JS exceptions
do not roll back effects). -/
def M (α : Type) : Type := World → Except JsError α × World

instance : Monad M where
  pure a := fun w => (.ok a, w)
  bind x f := fun w =>
    match x w with
    | (.ok a, w2) => f a w2
    | (.error e, w2) => (.error e, w2)

/-- `throw new Error(...)`. -/
def throwE (e : JsError) : M α := fun w => (.error e, w)

/-- `try ... catch (e) { ... }`. -/
def tryCatchE (x : M α) (h : JsError → M α) : M α := fun w =>
  match x w with
  | (.error e, w2) => h e w2
  | r => r

/-- Association-list lookup for the database map and the settings table. -/
def lookupA (k : String) : List (String × α) → Option α
  | [] => none
  | (k2, v) :: rest => if k2 = k then some v else lookupA k rest

/-- Association-list upsert: replace in place when the key exists,
append otherwise (Dexie `put` semantics; keys are unique primary keys). -/
def upsertA (k : String) (v : α) : List (String × α) → List (String × α)
  | [] => [(k, v)]
  | (k2, v2) :: rest => if k2 = k then (k, v) :: rest else (k2, v2) :: upsertA k v rest

/-- Association-list removal (IndexedDB `deleteDatabase`; keys are
unique primary keys). -/
def removeA (k : String) : List (String × α) → List (String × α)
  | [] => []
  | (k2, v2) :: rest => if k2 = k then removeA k rest else (k2, v2) :: removeA k rest

/-- The store of the named database, empty if the database does not exist
yet (a first write creates it). -/
def World.storeOf (w : World) (nm : String) : Store :=
  (lookupA nm w.databases).getD Store.empty

/-- Replace (or create) the named database. -/
def World.setDb (w : World) (nm : String) (s : Store) : World :=
  { w with databases := upsertA nm s w.databases }

/-- One draw from the entropy source (`crypto.randomUUID`, `Math.random`). -/
def freshNat : M Nat := fun w => (.ok w.rng, { w with rng := w.rng + 1 })

/-- `crypto.getRandomValues(new Uint8Array(n))`. -/
def getRandomValues (n : Nat) : M Bytes := fun w =>
  (.ok ⟨n, w.rng⟩, { w with rng := w.rng + 1 })

/-- `Date.now()`. -/
def dateNow : M Nat := fun w => (.ok w.now, w)

/-- `sessionKeyManager.setKey(key)`. -/
def setKey (k : CryptoKey) : M Unit := fun w =>
  (.ok (), { w with sessionKey := some k })

/-- `sessionKeyManager.getKey()`. -/
def getKey : M (Option CryptoKey) := fun w => (.ok w.sessionKey, w)

/-- `sessionKeyManager.clearKey()`. -/
def clearKey : M Unit := fun w => (.ok (), { w with sessionKey := none })

/-- `db.settings.get(key)`. -/
def settingsGet (db key : String) : M (Option SettingData) := fun w =>
  (.ok (lookupA key (w.storeOf db).settings), w)

/-- `db.settings.put({ id: key, data })`. -/
def settingsPut (db key : String) (d : SettingData) : M Unit := fun w =>
  let s := w.storeOf db
  (.ok (), w.setDb db { s with settings := upsertA key d s.settings })

/-- `db.notes.count()`. -/
def notesCount (db : String) : M Nat := fun w =>
  (.ok (w.storeOf db).notes.length, w)

/-- `db.notes.toArray()`. -/
def notesToArray (db : String) : M (List EncryptedNote) := fun w =>
  (.ok (w.storeOf db).notes, w)

/-- `db.notes.offset(offset).limit(limit).toArray()`. -/
def notesOffsetLimit (db : String) (offset limit : Nat) : M (List EncryptedNote) := fun w =>
  (.ok (((w.storeOf db).notes.drop offset).take limit), w)

/-- `db.notes.add(note)`: fails with `ConstraintError` when the primary
key already exists. -/
def notesAdd (db : String) (n : EncryptedNote) : M Unit := fun w =>
  let s := w.storeOf db
  if s.notes.any (fun m => m.id = n.id) then (.error .constraintError, w)
  else (.ok (), w.setDb db { s with notes := s.notes ++ [n] })

/-- `onProgress?.(current, total)`: recorded in the progress trace. -/
def reportProgress (current total : Nat) : M Unit := fun w =>
  (.ok (), { w with progress := w.progress ++ [(current, total)] })

/-- `crypto.subtle.encrypt({ name: 'AES-GCM', iv }, key, plain)` — never
fails for a valid AES-GCM key. -/
def subtleEncrypt (key : CryptoKey) (iv : Bytes) (p : Plaintext) : Ciphertext :=
  ⟨key.material, iv, p⟩

/-- `crypto.subtle.decrypt({ name: 'AES-GCM', iv }, key, ct)`: the AEAD
tag check passes exactly when key material and IV match the ones the
ciphertext was produced under; otherwise WebCrypto throws
`OperationError`. -/
def subtleDecrypt (key : CryptoKey) (iv : Bytes) (ct : Ciphertext) : M Plaintext :=
  if ct.keyMat = key.material ∧ ct.iv = iv then pure ct.plain
  else throwE .webCryptoOperationError

/-- `crypto.subtle.exportKey('raw', k)`. -/
def exportKeyRaw (k : CryptoKey) : Plaintext := .rawKey k.material

/-- `crypto.subtle.importKey('raw', bytes, { name: 'AES-GCM', length: 256 },
true, ['encrypt', 'decrypt'])`: importing bytes that are not raw key
material (e.g. JSON text of arbitrary length) throws `DataError`. -/
def importKeyRaw : Plaintext → M CryptoKey
  | .rawKey m => pure ⟨m, true⟩
  | .json _ => throwE .importKeyDataError

/-- `validatePassword` from `encryption.ts`. -/
def validatePassword (password : String) : M Unit :=
  if password = "" then throwE .passwordEmpty
  else if password.length < 8 then throwE .passwordTooShort
  else pure ()

/-- `validateBuffer` from `encryption.ts` (the null/type checks cannot
fail on well-typed inputs; the emptiness check remains). -/
def validateBuffer (b : Bytes) (nm : String) : M Unit :=
  if b.length = 0 then throwE (.bufferEmpty nm) else pure ()

/-- `deriveMasterKey(password, salt)` from `encryption.ts`: validation,
then PBKDF2-SHA-256 with 600000 iterations producing a non-extractable
AES-GCM key determined by `(password, salt)`. -/
def deriveMasterKey (password : String) (salt : Bytes) : M CryptoKey := do
  validatePassword password
  validateBuffer salt "salt"
  pure ⟨.derived password salt, false⟩

/-- `generateDataKey()` from `encryption.ts`: a fresh random extractable
256-bit AES-GCM key. -/
def generateDataKey : M CryptoKey := do
  let d ← freshNat
  pure ⟨.random d, true⟩

/-- The `{ ciphertext, iv }` result of the encryption helpers. -/
structure EncryptionResult where
  ciphertext : Ciphertext
  iv : Bytes
deriving DecidableEq, Repr, Inhabited

/-- `encryptData(data, key)` from `encryption.ts`: JSON-encode the payload
and AES-GCM-encrypt it under a fresh 12-byte IV.  (`validateEncryptionData`
rejects only `null`/`undefined`, which well-typed payloads exclude, and
the key-presence check cannot fail on a well-typed key.) -/
def encryptData (data : Payload) (key : CryptoKey) : M EncryptionResult := do
  let iv ← getRandomValues 12
  pure ⟨subtleEncrypt key iv (.json data), iv⟩

/-- `decryptData(ciphertext, iv, key)` from `encryption.ts`: validate the
inputs, then decrypt, decode and `JSON.parse` inside a `try` whose `catch`
normalizes every failure to the single generic `Decryption failed` error.
(`validateBuffer(ciphertext)` cannot fail: AES-GCM ciphertexts carry at
least the 16-byte tag, so they are never empty.) -/
def decryptData (ciphertext : Ciphertext) (iv : Bytes) (key : CryptoKey) : M Payload := do
  validateBuffer iv "iv"
  tryCatchE
    (do
      let plain ← subtleDecrypt key iv ciphertext
      match plain.asJson with
      | some p => pure p
      | none => throwE .jsonParseError)
    (fun _ => throwE .decryptionFailed)

/-- `encryptDataKey(dataKey, masterKey)` from `encryption.ts`: export the
Data Key's raw bytes and encrypt them under a fresh 12-byte IV. -/
def encryptDataKey (dataKey masterKey : CryptoKey) : M EncryptionResult := do
  let exported := exportKeyRaw dataKey
  let iv ← getRandomValues 12
  pure ⟨subtleEncrypt masterKey iv exported, iv⟩

/-- `decryptDataKey(encryptedKey, iv, masterKey)` from `encryption.ts`:
validate, then decrypt and re-import inside a `try` whose `catch`
normalizes every failure to the generic `Failed to decrypt data key`
error.  (As above, the ciphertext emptiness check cannot fail.) -/
def decryptDataKey (encryptedKey : Ciphertext) (iv : Bytes) (masterKey : CryptoKey) :
    M CryptoKey := do
  validateBuffer iv "iv"
  tryCatchE
    (do
      let decrypted ← subtleDecrypt masterKey iv encryptedKey
      importKeyRaw decrypted)
    (fun _ => throwE .failedToDecryptDataKey)

/-- `storeEncryptedDataKey(db, encryptedKey, iv, salt)` from
`encryption.ts`. -/
def storeEncryptedDataKey (db : String) (encryptedKey : Ciphertext) (iv salt : Bytes) :
    M Unit :=
  settingsPut db "encrypted_data_key" (.keyData ⟨encryptedKey, iv, salt⟩)

/-- `retrieveEncryptedDataKey(db)` from `encryption.ts`: `null` when no
record is stored.  (The unchecked TypeScript cast of `record.data` is
sound because only `storeEncryptedDataKey` writes this id.) -/
def retrieveEncryptedDataKey (db : String) : M (Option EncryptedKeyData) := do
  let record ← settingsGet db "encrypted_data_key"
  match record with
  | some (.keyData k) => pure (some k)
  | _ => pure none

/-- The `vault_${crypto.randomUUID()}` database name of `createVault`. -/
def mkVaultId (u : Nat) : String := "vault_" ++ toString u

/-- The `vault_${crypto.randomUUID()}_temp` database name of the
Provision phase of `changeVaultPassword`. -/
def mkTempVaultId (u : Nat) : String := "vault_" ++ toString u ++ "_temp"

/-- `createVault(vaultName, password)` from `vaults.ts`. -/
def createVault (vaultName password : String) : M String := do
  let u ← freshNat
  let vaultId := mkVaultId u
  let salt ← getRandomValues 16
  let masterKey ← deriveMasterKey password salt
  let dataKey ← generateDataKey
  let r ← encryptDataKey dataKey masterKey
  let ts ← dateNow
  settingsPut vaultId "vault_metadata" (.metadata ⟨vaultName, ts⟩)
  storeEncryptedDataKey vaultId r.ciphertext r.iv salt
  setKey dataKey
  pure vaultId

/-- `openVault(vaultId, password)` from `vaults.ts` (the returned database
handle is the database name). -/
def openVault (vaultId password : String) : M String := do
  let keyData ← retrieveEncryptedDataKey vaultId
  match keyData with
  | none => throwE .vaultDataKeyNotFound
  | some kd => do
    let masterKey ← deriveMasterKey password kd.salt
    tryCatchE
      (do
        let dataKey ← decryptDataKey kd.encryptedKey kd.keyIv masterKey
        setKey dataKey
        pure vaultId)
      (fun _ => throwE .invalidPassword)

/-- `deleteVault(vaultId)` from `vaults.ts`: no-op when the database does
not exist; otherwise the `deleteDatabase` request either succeeds or is
rejected by the platform (`deleteBroken`), leaving the database in
place. -/
def deleteVault (vaultId : String) : M Unit := fun w =>
  if (lookupA vaultId w.databases).isSome then
    if vaultId ∈ w.deleteBroken then (.error .deleteDatabaseFailed, w)
    else (.ok (), { w with databases := removeA vaultId w.databases })
  else (.ok (), w)

/-- `getVaultMetadata(vaultId)` from `vaults.ts`: `null` when absent
(its `catch` also returns `null`, but reads cannot fail here). -/
def getVaultMetadata (vaultId : String) : M (Option VaultMetadata) := do
  let record ← settingsGet vaultId "vault_metadata"
  match record with
  | some (.metadata m) => pure (some m)
  | _ => pure none

/-- The body of the `for (const encryptedNote of batch)` loop of
`changeVaultPassword` Phase 3: decrypt both fields with the old key,
re-encrypt with the new key under fresh IVs, insert under the same id
with the original timestamps and `schemaVersion: 1`, then count the
record and report progress. -/
def migrateBatch (newId : String) (oldKey newKey : CryptoKey) (total : Nat) :
    Nat → List EncryptedNote → M Nat
  | processed, [] => pure processed
  | processed, note :: rest => do
      let noteMetadata ← decryptData note.metaCipher note.metaIv oldKey
      let noteContent ← decryptData note.contentCipher note.contentIv oldKey
      let newMeta ← encryptData noteMetadata newKey
      let newContent ← encryptData noteContent newKey
      notesAdd newId
        { id := note.id
          metaCipher := newMeta.ciphertext
          metaIv := newMeta.iv
          contentCipher := newContent.ciphertext
          contentIv := newContent.iv
          createdAt := note.createdAt
          updatedAt := note.updatedAt
          schemaVersion := 1 }
      reportProgress (processed + 1) total
      migrateBatch newId oldKey newKey total (processed + 1) rest

/-- The `while (offset < total)` pagination loop of `changeVaultPassword`
Phase 3, with `batchSize = 50`.  The loop guard `offset < total` is
re-checked before every iteration exactly as in the source; the extra
`fuel` argument (consumed once per iteration) only makes the recursion
structural, and never cuts the loop short: `migrateLoop` below supplies
`total - offset` units, while the guard fails after at most
`⌈(total - offset) / 50⌉ ≤ total - offset` iterations because `offset`
grows by 50 each time, so the zero-fuel branch is reached only when the
guard is already false and returns the same `processed`. -/
def migrateGo (oldId newId : String) (oldKey newKey : CryptoKey) (total : Nat) :
    Nat → Nat → Nat → M Nat
  | 0, processed, _offset => pure processed
  | Nat.succ fuel, processed, offset =>
    if offset < total then do
      let batch ← notesOffsetLimit oldId offset 50
      let processed2 ← migrateBatch newId oldKey newKey total processed batch
      migrateGo oldId newId oldKey newKey total fuel processed2 (offset + 50)
    else pure processed

/-- The `while (offset < total)` loop entry point (Phase 3 starts it at
`offset = 0`, `processed = 0`). -/
def migrateLoop (oldId newId : String) (oldKey newKey : CryptoKey)
    (total processed offset : Nat) : M Nat :=
  migrateGo oldId newId oldKey newKey total (total - offset) processed offset

/-- The per-note check of the sample-verification loop of
`changeVaultPassword` Phase 4 (source lines 355-363): decrypt both fields
of the sampled note, converting any failure into the per-note
diagnostic. -/
def verifyNote (testNote : EncryptedNote) (testKey : CryptoKey) : M Unit :=
  tryCatchE
    (do
      let _ ← decryptData testNote.metaCipher testNote.metaIv testKey
      let _ ← decryptData testNote.contentCipher testNote.contentIv testKey
      pure ())
    (fun _ => throwE (.noteDecryptFailed testNote.id))

/-- The sample-verification loop of `changeVaultPassword` Phase 4: `count`
times, pick `Math.floor(Math.random() * allNotes.length)` and check that
note.  (When the loop runs, `allNotes` is non-empty, so the index is in
range.) -/
def verifySample (allNotes : List EncryptedNote) (testKey : CryptoKey) :
    Nat → M Unit
  | 0 => pure ()
  | Nat.succ k => do
      let r ← freshNat
      let testNote := allNotes.getD (r % allNotes.length) default
      verifyNote testNote testKey
      verifySample allNotes testKey k

/-- Phase 2 of `changeVaultPassword` (Provision, source lines 229-252):
generate the new Data Key, a new salt and the new Master Key, wrap and
store the new Data Key in the new store, and copy the vault metadata
(display name and creation timestamp). -/
def provisionNewVault (newPassword : String) (metadata : VaultMetadata)
    (newVaultId : String) : M CryptoKey := do
  let newDataKey ← generateDataKey
  let newSalt ← getRandomValues 16
  let newMasterKey ← deriveMasterKey newPassword newSalt
  let r ← encryptDataKey newDataKey newMasterKey
  storeEncryptedDataKey newVaultId r.ciphertext r.iv newSalt
  settingsPut newVaultId "vault_metadata" (.metadata ⟨metadata.name, metadata.createdAt⟩)
  pure newDataKey

/-- Phase 3 of `changeVaultPassword` (Migrate, source lines 254-311):
count the old notes, run the paginated re-encryption loop, then copy the
`folders` settings record verbatim when present.  Returns the `total`
captured at the start, which Phase 4 checks against. -/
def migratePhase (vaultId newVaultId : String) (oldDataKey newDataKey : CryptoKey) :
    M Nat := do
  let total ← notesCount vaultId
  let _processed ← migrateLoop vaultId newVaultId oldDataKey newDataKey total 0 0
  let folderSettings ← settingsGet vaultId "folders"
  match folderSettings with
  | some d => settingsPut newVaultId "folders" d
  | none => pure ()
  pure total

/-- Phase 4 of `changeVaultPassword` (Verify-New, source lines 313-366):
compare note counts, check every old note id is present in the new store,
re-open the new store with the new password exactly as a real unlock, and
decrypt a random sample of `min(5, total)` notes from it. -/
def verifyPhase (vaultId newVaultId newPassword : String) (total : Nat) : M Unit := do
  let newVaultNoteCount ← notesCount newVaultId
  if newVaultNoteCount ≠ total then
    throwE (.noteCountMismatch total newVaultNoteCount)
  let oldNotesAll ← notesToArray vaultId
  let newNotesAll ← notesToArray newVaultId
  let oldIds := (oldNotesAll.map EncryptedNote.id).dedup
  let newIds := (newNotesAll.map EncryptedNote.id).dedup
  let missingIds := oldIds.filter (fun i => i ∉ newIds)
  if missingIds.length > 0 then
    throwE (.missingNotes missingIds)
  let _testVault ← openVault newVaultId newPassword
  let notesToVerify := min 5 total
  if notesToVerify > 0 then do
    let allNotes ← notesToArray newVaultId
    let testKey ← getKey
    match testKey with
    | none => throwE .sessionKeyUnavailable
    | some k => verifySample allNotes k notesToVerify

/-- Phases 2 to 4 of `changeVaultPassword` (Provision, Migrate,
Verify-New), exactly as between the assignment of `newVaultId` and the
final `deleteVault(vaultId)` of the source. -/
def migrateAndVerify (vaultId newPassword : String) (oldDataKey : CryptoKey)
    (metadata : VaultMetadata) (newVaultId : String) : M Unit := do
  let newDataKey ← provisionNewVault newPassword metadata newVaultId
  let total ← migratePhase vaultId newVaultId oldDataKey newDataKey
  verifyPhase vaultId newVaultId newPassword total

/-- The `catch` block of `changeVaultPassword` in the case where
`newVaultId` has been assigned: delete the temporary store best-effort
(`.catch(() => {})` swallows the cleanup error) and re-throw the original
error unchanged. -/
def rollbackOnError (newVaultId : String) (body : M String) : M String :=
  tryCatchE body (fun e => do
    tryCatchE (deleteVault newVaultId) (fun _ => pure ())
    throwE e)

/-- `changeVaultPassword(vaultId, currentPassword, newPassword, onProgress)`
from `vaults.ts`.  Errors thrown before `newVaultId` is assigned reach the
source's `catch` with `newVaultId === null`, which only closes handles, so
they propagate without cleanup; later errors run the rollback. -/
def changeVaultPassword (vaultId currentPassword newPassword : String) : M String := do
  let oldKeyData ← retrieveEncryptedDataKey vaultId
  match oldKeyData with
  | none => throwE .vaultDataKeyNotFound
  | some okd => do
    let oldMasterKey ← deriveMasterKey currentPassword okd.salt
    let oldDataKey ← tryCatchE
        (decryptDataKey okd.encryptedKey okd.keyIv oldMasterKey)
        (fun _ => throwE .currentPasswordIncorrect)
    let metadata ← getVaultMetadata vaultId
    match metadata with
    | none => throwE .vaultMetadataNotFound
    | some md => do
      let u ← freshNat
      let newVaultId := mkTempVaultId u
      rollbackOnError newVaultId (do
        migrateAndVerify vaultId newPassword oldDataKey md newVaultId
        deleteVault vaultId
        pure newVaultId)

/-- `getVaultCredentials(db)` from `webauthn.ts`: the stored list, or `[]`
when the record is absent or its `data` lacks a `credentials` field. -/
def getVaultCredentials (db : String) : M (List WebAuthnCredential) := do
  let record ← settingsGet db "webauthn_credentials"
  match record with
  | some (.credentials cs) => pure cs
  | _ => pure []

/-- `storeVaultCredentials(db, credentials)` from `webauthn.ts`. -/
def storeVaultCredentials (db : String) (credentials : List WebAuthnCredential) : M Unit :=
  settingsPut db "webauthn_credentials" (.credentials credentials)

/-- `removePasskey(vaultId, credentialId)` from `webauthn.ts`: filter the
credential out of the list and persist the remainder (the `finally` only
closes the handle). -/
def removePasskey (vaultId credentialId : String) : M Unit := do
  let credentials ← getVaultCredentials vaultId
  let updatedCredentials := credentials.filter (fun c => c.id ≠ credentialId)
  storeVaultCredentials vaultId updatedCredentials

/-- Decryption of one encrypted field, as a pure function of the key
material: succeeds iff the ciphertext was produced under that material and
IV and its plaintext is JSON. -/
def decField (km : KeyMaterial) (ct : Ciphertext) (iv : Bytes) : Option Payload :=
  if ct.keyMat = km ∧ ct.iv = iv then ct.plain.asJson else none

/-- Unwrapping a wrapped Data Key, as a pure function of the wrapping key
material: yields the wrapped material iff key material and IV match and
the plaintext is raw key bytes. -/
def unwrapKM (mk : KeyMaterial) (ct : Ciphertext) (iv : Bytes) : Option KeyMaterial :=
  if ct.keyMat = mk ∧ ct.iv = iv then
    match ct.plain with
    | .rawKey m => some m
    | .json _ => none
  else none

/-- The Wrapped Key Record persisted for a vault, if any. -/
def keyRecordOf (w : World) (db : String) : Option EncryptedKeyData :=
  match lookupA "encrypted_data_key" (w.storeOf db).settings with
  | some (.keyData k) => some k
  | _ => none

/-- The persisted passkey credential list of a vault (empty when the
record is absent or has no `credentials` field). -/
def credsOf (w : World) (db : String) : List WebAuthnCredential :=
  match lookupA "webauthn_credentials" (w.storeOf db).settings with
  | some (.credentials cs) => cs
  | _ => []

/-- The vault metadata record of a vault, if present. -/
def metaRecordOf (w : World) (db : String) : Option VaultMetadata :=
  match lookupA "vault_metadata" (w.storeOf db).settings with
  | some (.metadata m) => some m
  | _ => none

/-- The re-encryption relation established by the Migrate phase: the new
record keeps the old record's id and timestamps, has `schemaVersion` 1,
and both of its fields decrypt under the new key material to exactly the
plaintexts the old fields held under the old key material. -/
def MigratedNote (oldKM newKM : KeyMaterial) (o n : EncryptedNote) : Prop :=
  n.id = o.id ∧ n.createdAt = o.createdAt ∧ n.updatedAt = o.updatedAt ∧
  n.schemaVersion = 1 ∧
  decField newKM n.metaCipher n.metaIv = decField oldKM o.metaCipher o.metaIv ∧
  decField newKM n.contentCipher n.contentIv = decField oldKM o.contentCipher o.contentIv ∧
  (decField oldKM o.metaCipher o.metaIv).isSome ∧
  (decField oldKM o.contentCipher o.contentIv).isSome

end GullNotes

namespace GullNotes


/-- Frame relation between two worlds: every database other than `nm` is
byte-for-byte unchanged. -/
def agreesExcept (nm : String) (w1 w2 : World) : Prop :=
  ∀ k, k ≠ nm → lookupA k w2.databases = lookupA k w1.databases

/-- Frame facts preserved by the Migrate phase on any outcome: the new
store's settings, every other database, the session key, the set of
broken deletions and the clock are untouched. -/
def BatchFrame (nm : String) (w1 w2 : World) : Prop :=
  (w2.storeOf nm).settings = (w1.storeOf nm).settings ∧
  agreesExcept nm w1 w2 ∧ w2.sessionKey = w1.sessionKey ∧
  w2.deleteBroken = w1.deleteBroken ∧ w2.now = w1.now

/-- Concrete salt draw used by the concrete example vault. -/
def cexSalt : Bytes := ⟨16, 100⟩

/-- Concrete key-wrapping IV used by the concrete example vault. -/
def cexKeyIv : Bytes := ⟨12, 101⟩

/-- Data-Key material of the concrete example vault. -/
def cexOldKM : KeyMaterial := .random 50

/-- Wrapped Key Record of the concrete example vault: the Data Key wrapped
under the Master Key derived from password `password-old` and `cexSalt`. -/
def cexKeyRecord : EncryptedKeyData :=
  ⟨⟨.derived "password-old" cexSalt, cexKeyIv, .rawKey cexOldKM⟩, cexKeyIv, cexSalt⟩

/-- A registered passkey credential for the concrete example vault. -/
def cexCred : WebAuthnCredential :=
  ⟨"cred-1", "My Passkey", 5, 6, ⟨.random 7, ⟨12, 9⟩, .rawKey cexOldKM⟩, ⟨12, 9⟩⟩

/-- Store of the concrete example vault `vault_A` (no notes, metadata,
wrapped key record, one passkey credential). -/
def cexStore : Store :=
  { notes := []
    settings :=
      [("vault_metadata", .metadata ⟨"V", 10⟩),
       ("encrypted_data_key", .keyData cexKeyRecord),
       ("webauthn_credentials", .credentials [cexCred])] }

/-- Concrete example world: one vault `vault_A`, locked session, entropy
counter at 0. -/
def cexWorld : World :=
  { databases := [("vault_A", cexStore)]
    sessionKey := none
    rng := 0
    now := 999
    deleteBroken := []
    progress := [] }

theorem pure_app (a : α) (w : World) : (pure a : M α) w = (.ok a, w) := rfl

theorem bind_app (x : M α) (f : α → M β) (w : World) :
    (x >>= f) w = match x w with
      | (.ok a, w2) => f a w2
      | (.error e, w2) => (.error e, w2) := rfl

theorem throwE_app (e : JsError) (w : World) : (throwE e : M α) w = (.error e, w) := rfl

theorem tryCatchE_app (x : M α) (h : JsError → M α) (w : World) :
    tryCatchE x h w = match x w with
      | (.error e, w2) => h e w2
      | r => r := rfl

theorem lookupA_upsertA_self (k : String) (v : α) (l : List (String × α)) :
    lookupA k (upsertA k v l) = some v := by
  induction l with
  | nil => simp [upsertA, lookupA]
  | cons p rest ih =>
    obtain ⟨k2, v2⟩ := p
    by_cases h : k2 = k <;> simp [upsertA, lookupA, h, ih]

theorem lookupA_upsertA_ne (k k2 : String) (v : α) (l : List (String × α))
    (h : k2 ≠ k) : lookupA k2 (upsertA k v l) = lookupA k2 l := by
  have h2 : k ≠ k2 := Ne.symm h
  induction l with
  | nil => simp [upsertA, lookupA, h2]
  | cons p rest ih =>
    obtain ⟨k3, v3⟩ := p
    by_cases h3 : k3 = k
    · subst h3
      simp [upsertA, lookupA, h2]
    · simp [upsertA, lookupA, h3, ih]

theorem lookupA_removeA_self (k : String) (l : List (String × α)) :
    lookupA k (removeA k l) = none := by
  induction l with
  | nil => simp [removeA, lookupA]
  | cons p rest ih =>
    obtain ⟨k2, v2⟩ := p
    by_cases h : k2 = k <;> simp [removeA, lookupA, h, ih]

theorem lookupA_removeA_ne (k k2 : String) (l : List (String × α)) (h : k2 ≠ k) :
    lookupA k2 (removeA k l) = lookupA k2 l := by
  have h2 : k ≠ k2 := Ne.symm h
  induction l with
  | nil => simp [removeA, lookupA]
  | cons p rest ih =>
    obtain ⟨k3, v3⟩ := p
    by_cases h3 : k3 = k
    · subst h3
      simp [removeA, lookupA, h2, ih]
    · simp [removeA, lookupA, h3, ih]

theorem upsertA_upsertA (k : String) (v1 v2 : α) (l : List (String × α)) :
    upsertA k v2 (upsertA k v1 l) = upsertA k v2 l := by
  induction l with
  | nil => simp [upsertA]
  | cons p rest ih =>
    obtain ⟨k2, w2⟩ := p
    by_cases h : k2 = k <;> simp [upsertA, h, ih]

theorem storeOf_setDb_self (w : World) (nm : String) (s : Store) :
    (w.setDb nm s).storeOf nm = s := by
  simp [World.setDb, World.storeOf, lookupA_upsertA_self]

theorem storeOf_setDb_ne (w : World) (nm nm2 : String) (s : Store) (h : nm2 ≠ nm) :
    (w.setDb nm s).storeOf nm2 = w.storeOf nm2 := by
  simp [World.setDb, World.storeOf, lookupA_upsertA_ne _ _ _ _ h]

theorem lookupA_setDb_self (w : World) (nm : String) (s : Store) :
    lookupA nm (w.setDb nm s).databases = some s := by
  simp [World.setDb, lookupA_upsertA_self]

theorem lookupA_setDb_ne (w : World) (nm nm2 : String) (s : Store) (h : nm2 ≠ nm) :
    lookupA nm2 (w.setDb nm s).databases = lookupA nm2 w.databases := by
  simp [World.setDb, lookupA_upsertA_ne _ _ _ _ h]

theorem decryptData_eq (ct : Ciphertext) (iv : Bytes) (key : CryptoKey) (w : World) :
    decryptData ct iv key w =
      if iv.length = 0 then (.error (.bufferEmpty "iv"), w)
      else match decField key.material ct iv with
        | some p => (.ok p, w)
        | none => (.error .decryptionFailed, w) := by
  unfold decryptData validateBuffer decField subtleDecrypt Plaintext.asJson
  by_cases h1 : iv.length = 0
  · simp [h1, bind_app, throwE_app, tryCatchE_app]
  · by_cases h2 : ct.keyMat = key.material ∧ ct.iv = iv
    · cases hp : ct.plain <;>
        simp [h1, h2, hp, bind_app, throwE_app, tryCatchE_app, pure_app]
    · simp [h1, h2, bind_app, throwE_app, tryCatchE_app]

theorem decryptDataKey_eq (ct : Ciphertext) (iv : Bytes) (mk : CryptoKey) (w : World) :
    decryptDataKey ct iv mk w =
      if iv.length = 0 then (.error (.bufferEmpty "iv"), w)
      else match unwrapKM mk.material ct iv with
        | some m => (.ok ⟨m, true⟩, w)
        | none => (.error .failedToDecryptDataKey, w) := by
  unfold decryptDataKey validateBuffer unwrapKM subtleDecrypt importKeyRaw
  by_cases h1 : iv.length = 0
  · simp [h1, bind_app, throwE_app, tryCatchE_app]
  · by_cases h2 : ct.keyMat = mk.material ∧ ct.iv = iv
    · cases hp : ct.plain <;>
        simp [h1, h2, hp, bind_app, throwE_app, tryCatchE_app, pure_app]
    · simp [h1, h2, bind_app, throwE_app, tryCatchE_app]

theorem encryptData_eq (p : Payload) (key : CryptoKey) (w : World) :
    encryptData p key w =
      (.ok ⟨⟨key.material, ⟨12, w.rng⟩, .json p⟩, ⟨12, w.rng⟩⟩, { w with rng := w.rng + 1 }) := rfl

theorem encryptDataKey_eq (dk mk : CryptoKey) (w : World) :
    encryptDataKey dk mk w =
      (.ok ⟨⟨mk.material, ⟨12, w.rng⟩, .rawKey dk.material⟩, ⟨12, w.rng⟩⟩,
        { w with rng := w.rng + 1 }) := rfl

theorem deriveMasterKey_eq (pw : String) (salt : Bytes) (w : World) :
    deriveMasterKey pw salt w =
      if pw = "" then (.error .passwordEmpty, w)
      else if pw.length < 8 then (.error .passwordTooShort, w)
      else if salt.length = 0 then (.error (.bufferEmpty "salt"), w)
      else (.ok ⟨.derived pw salt, false⟩, w) := by
  unfold deriveMasterKey validatePassword validateBuffer
  by_cases h1 : pw = "" <;> by_cases h2 : pw.length < 8 <;> by_cases h3 : salt.length = 0 <;>
    simp [h1, h2, h3, bind_app, throwE_app, pure_app]

theorem generateDataKey_eq (w : World) :
    generateDataKey w = (.ok ⟨.random w.rng, true⟩, { w with rng := w.rng + 1 }) := rfl

theorem retrieveEncryptedDataKey_eq (db : String) (w : World) :
    retrieveEncryptedDataKey db w = (.ok (keyRecordOf w db), w) := by
  unfold retrieveEncryptedDataKey settingsGet keyRecordOf
  cases h : lookupA "encrypted_data_key" (w.storeOf db).settings with
  | none => simp [h, bind_app, pure_app]
  | some d => cases d <;> simp [h, bind_app, pure_app]

theorem getVaultMetadata_eq (db : String) (w : World) :
    getVaultMetadata db w = (.ok (metaRecordOf w db), w) := by
  unfold getVaultMetadata settingsGet metaRecordOf
  cases h : lookupA "vault_metadata" (w.storeOf db).settings with
  | none => simp [h, bind_app, pure_app]
  | some d => cases d <;> simp [h, bind_app, pure_app]

theorem getVaultCredentials_eq (db : String) (w : World) :
    getVaultCredentials db w = (.ok (credsOf w db), w) := by
  unfold getVaultCredentials settingsGet credsOf
  cases h : lookupA "webauthn_credentials" (w.storeOf db).settings with
  | none => simp [h, bind_app, pure_app]
  | some d => cases d <;> simp [h, bind_app, pure_app]

theorem settingsPut_eq (db key : String) (d : SettingData) (w : World) :
    settingsPut db key d w =
      (.ok (), w.setDb db
        { w.storeOf db with settings := upsertA key d (w.storeOf db).settings }) := rfl

theorem notesAdd_eq (db : String) (n : EncryptedNote) (w : World) :
    notesAdd db n w =
      if (w.storeOf db).notes.any (fun m => m.id = n.id) then (.error .constraintError, w)
      else (.ok (), w.setDb db
        { w.storeOf db with notes := (w.storeOf db).notes ++ [n] }) := by
  unfold notesAdd
  by_cases h : (w.storeOf db).notes.any (fun m => m.id = n.id) <;> simp [h]

theorem deleteVault_eq (vid : String) (w : World) :
    deleteVault vid w =
      if (lookupA vid w.databases).isSome then
        if vid ∈ w.deleteBroken then (.error .deleteDatabaseFailed, w)
        else (.ok (), { w with databases := removeA vid w.databases })
      else (.ok (), w) := rfl

theorem settingsGet_eq (db key : String) (w : World) :
    settingsGet db key w = (.ok (lookupA key (w.storeOf db).settings), w) := rfl

theorem notesCount_eq (db : String) (w : World) :
    notesCount db w = (.ok (w.storeOf db).notes.length, w) := rfl

theorem notesToArray_eq (db : String) (w : World) :
    notesToArray db w = (.ok (w.storeOf db).notes, w) := rfl

theorem notesOffsetLimit_eq (db : String) (offset limit : Nat) (w : World) :
    notesOffsetLimit db offset limit w =
      (.ok (((w.storeOf db).notes.drop offset).take limit), w) := rfl

theorem freshNat_eq (w : World) : freshNat w = (.ok w.rng, { w with rng := w.rng + 1 }) := rfl

theorem getKey_eq (w : World) : getKey w = (.ok w.sessionKey, w) := rfl

theorem reportProgress_eq (c t : Nat) (w : World) :
    reportProgress c t w = (.ok (), { w with progress := w.progress ++ [(c, t)] }) := rfl

theorem removePasskey_eq (vid cid : String) (w : World) :
    removePasskey vid cid w =
      (.ok (), w.setDb vid
        { w.storeOf vid with
            settings := upsertA "webauthn_credentials"
              (.credentials ((credsOf w vid).filter (fun c => c.id ≠ cid)))
              (w.storeOf vid).settings }) := by
  unfold removePasskey storeVaultCredentials
  rw [bind_app, getVaultCredentials_eq]
  simp only
  rw [settingsPut_eq]


theorem agreesExcept_refl (nm : String) (w : World) : agreesExcept nm w w :=
  fun _ _ => rfl

theorem agreesExcept_trans {nm : String} {w1 w2 w3 : World}
    (h1 : agreesExcept nm w1 w2) (h2 : agreesExcept nm w2 w3) :
    agreesExcept nm w1 w3 :=
  fun k hk => (h2 k hk).trans (h1 k hk)

theorem agreesExcept_of_eq_databases {nm : String} {w1 w2 : World}
    (h : w2.databases = w1.databases) : agreesExcept nm w1 w2 :=
  fun k _ => by rw [h]

theorem agreesExcept_setDb (nm : String) (w : World) (s : Store) :
    agreesExcept nm w (w.setDb nm s) :=
  fun k hk => lookupA_setDb_ne w nm k s hk

theorem storeOf_of_agreesExcept {nm : String} {w1 w2 : World}
    (h : agreesExcept nm w1 w2) (k : String) (hk : k ≠ nm) :
    w2.storeOf k = w1.storeOf k := by
  unfold World.storeOf
  rw [h k hk]

theorem openVault_eq (vid pw : String) (w : World) :
    openVault vid pw w =
      match keyRecordOf w vid with
      | none => (.error .vaultDataKeyNotFound, w)
      | some kd =>
        if pw = "" then (.error .passwordEmpty, w)
        else if pw.length < 8 then (.error .passwordTooShort, w)
        else if kd.salt.length = 0 then (.error (.bufferEmpty "salt"), w)
        else if kd.keyIv.length = 0 then (.error .invalidPassword, w)
        else match unwrapKM (.derived pw kd.salt) kd.encryptedKey kd.keyIv with
          | some m => (.ok vid, { w with sessionKey := some ⟨m, true⟩ })
          | none => (.error .invalidPassword, w) := by
  unfold openVault setKey
  rw [bind_app, retrieveEncryptedDataKey_eq]
  cases hk : keyRecordOf w vid with
  | none => simp [throwE_app]
  | some kd =>
    simp only
    rw [bind_app, deriveMasterKey_eq]
    by_cases h1 : pw = ""
    · simp [h1, throwE_app]
    · by_cases h2 : pw.length < 8
      · simp [h1, h2, throwE_app]
      · by_cases h3 : kd.salt.length = 0
        · simp [h1, h2, h3, throwE_app]
        · simp only [h1, h2, h3, if_false, if_neg]
          rw [tryCatchE_app]
          rw [bind_app, decryptDataKey_eq]
          by_cases h4 : kd.keyIv.length = 0
          · simp [h4, throwE_app]
          · cases hu : unwrapKM (.derived pw kd.salt) kd.encryptedKey kd.keyIv with
            | some m => simp [h4, hu, bind_app, pure_app]
            | none => simp [h4, hu, throwE_app]

theorem createVault_eq (vaultName pw : String) (w : World) :
    createVault vaultName pw w =
      if pw = "" then (.error .passwordEmpty, { w with rng := w.rng + 2 })
      else if pw.length < 8 then (.error .passwordTooShort, { w with rng := w.rng + 2 })
      else
        (.ok (mkVaultId w.rng),
          ({ w with rng := w.rng + 4, sessionKey := some ⟨.random (w.rng + 2), true⟩ }).setDb
            (mkVaultId w.rng)
            { w.storeOf (mkVaultId w.rng) with
                settings :=
                  upsertA "encrypted_data_key"
                    (.keyData
                      ⟨⟨.derived pw ⟨16, w.rng + 1⟩, ⟨12, w.rng + 3⟩,
                          .rawKey (.random (w.rng + 2))⟩,
                        ⟨12, w.rng + 3⟩, ⟨16, w.rng + 1⟩⟩)
                    (upsertA "vault_metadata" (.metadata ⟨vaultName, w.now⟩)
                      (w.storeOf (mkVaultId w.rng)).settings) }) := by
  unfold createVault freshNat getRandomValues dateNow setKey storeEncryptedDataKey
  rw [bind_app]
  simp only
  rw [bind_app]
  simp only
  rw [bind_app, deriveMasterKey_eq]
  by_cases h1 : pw = ""
  · simp [h1, throwE_app]
  · by_cases h2 : pw.length < 8
    · simp [h1, h2, throwE_app]
    · have h3 : ¬ (16 : Nat) = 0 := by omega
      simp only [h1, h2, h3, if_false, Bytes.length]
      rw [bind_app, generateDataKey_eq]
      simp only
      rw [bind_app, encryptDataKey_eq]
      simp only
      rw [bind_app]
      simp only [dateNow]
      rw [bind_app, settingsPut_eq]
      simp only
      rw [bind_app, settingsPut_eq]
      simp only
      rw [bind_app]
      simp only [pure_app]
      simp only [Prod.mk.injEq]
      constructor
      · simp
      · simp [World.setDb, World.storeOf, lookupA_upsertA_self, upsertA_upsertA]


theorem BatchFrame.refl (nm : String) (w : World) : BatchFrame nm w w :=
  ⟨Eq.refl _, agreesExcept_refl _ _, Eq.refl _, Eq.refl _, Eq.refl _⟩

theorem BatchFrame.trans {nm : String} {w1 w2 w3 : World}
    (h1 : BatchFrame nm w1 w2) (h2 : BatchFrame nm w2 w3) : BatchFrame nm w1 w3 :=
  ⟨h2.1.trans h1.1, agreesExcept_trans h1.2.1 h2.2.1,
    h2.2.2.1.trans h1.2.2.1, h2.2.2.2.1.trans h1.2.2.2.1, h2.2.2.2.2.trans h1.2.2.2.2⟩

theorem BatchFrame.rng (nm : String) (w : World) (n : Nat) :
    BatchFrame nm w { w with rng := n } :=
  ⟨Eq.refl _, agreesExcept_of_eq_databases (Eq.refl _), Eq.refl _, Eq.refl _, Eq.refl _⟩

theorem BatchFrame.progress (nm : String) (w : World) (l : List (Nat × Nat)) :
    BatchFrame nm w { w with progress := l } :=
  ⟨Eq.refl _, agreesExcept_of_eq_databases (Eq.refl _), Eq.refl _, Eq.refl _, Eq.refl _⟩

theorem BatchFrame.addNotes (nm : String) (w : World) (ns : List EncryptedNote) :
    BatchFrame nm w (w.setDb nm { w.storeOf nm with notes := ns }) :=
  ⟨by rw [storeOf_setDb_self], agreesExcept_setDb _ _ _, Eq.refl _, Eq.refl _, Eq.refl _⟩

theorem migrateBatch_compose (newId : String) (oldK newK : CryptoKey) (total : Nat)
    (note n : EncryptedNote) (rest : List EncryptedNote) (processed : Nat)
    (w wc : World)
    (hframe : BatchFrame newId w wc)
    (hnotes : (wc.storeOf newId).notes = (w.storeOf newId).notes ++ [n])
    (hmn : MigratedNote oldK.material newK.material note n)
    (hrec : match migrateBatch newId oldK newK total (processed + 1) rest wc with
       | (.ok p2, w2) =>
           ∃ ms, (w2.storeOf newId).notes = (wc.storeOf newId).notes ++ ms ∧
             List.Forall₂ (MigratedNote oldK.material newK.material) rest ms ∧
             BatchFrame newId wc w2 ∧ p2 = processed + 1 + rest.length
       | (.error _, w2) => BatchFrame newId wc w2) :
    (match migrateBatch newId oldK newK total (processed + 1) rest wc with
       | (.ok p2, w2) =>
           ∃ ms, (w2.storeOf newId).notes = (w.storeOf newId).notes ++ ms ∧
             List.Forall₂ (MigratedNote oldK.material newK.material) (note :: rest) ms ∧
             BatchFrame newId w w2 ∧ p2 = processed + (note :: rest).length
       | (.error _, w2) => BatchFrame newId w w2) := by
  cases hrun : migrateBatch newId oldK newK total (processed + 1) rest wc with
  | mk r w2 =>
    rw [hrun] at hrec
    cases r with
    | error e => exact BatchFrame.trans hframe hrec
    | ok p2 =>
      obtain ⟨ms, hns, hfa, hfr, hp⟩ := hrec
      refine ⟨n :: ms, ?_, .cons hmn hfa, BatchFrame.trans hframe hfr, ?_⟩
      · rw [hns, hnotes, List.append_assoc]
        simp
      · simp only [List.length_cons]
        omega

theorem migrateBatch_cases (newId : String) (oldK newK : CryptoKey) (total : Nat) :
    ∀ (batch : List EncryptedNote) (processed : Nat) (w : World),
    (match migrateBatch newId oldK newK total processed batch w with
     | (.ok p2, w2) =>
         ∃ ms, (w2.storeOf newId).notes = (w.storeOf newId).notes ++ ms ∧
           List.Forall₂ (MigratedNote oldK.material newK.material) batch ms ∧
           BatchFrame newId w w2 ∧ p2 = processed + batch.length
     | (.error _, w2) => BatchFrame newId w w2) := by
  intro batch
  induction batch with
  | nil =>
    intro processed w
    simp only [migrateBatch, pure_app]
    exact ⟨[], by simp, .nil, BatchFrame.refl _ _, by simp⟩
  | cons note rest ih =>
    intro processed w
    simp only [migrateBatch]
    rw [bind_app, decryptData_eq]
    by_cases hm0 : note.metaIv.length = 0
    · rw [if_pos hm0]
      exact BatchFrame.refl _ _
    · rw [if_neg hm0]
      cases hd1 : decField oldK.material note.metaCipher note.metaIv with
      | none =>
        simp only [hd1]
        exact BatchFrame.refl _ _
      | some p =>
        simp only [hd1]
        rw [bind_app, decryptData_eq]
        by_cases hc0 : note.contentIv.length = 0
        · rw [if_pos hc0]
          exact BatchFrame.refl _ _
        · rw [if_neg hc0]
          cases hd2 : decField oldK.material note.contentCipher note.contentIv with
          | none =>
            simp only [hd2]
            exact BatchFrame.refl _ _
          | some q =>
            simp only [hd2]
            rw [bind_app, encryptData_eq]
            simp only
            rw [bind_app, encryptData_eq]
            simp only
            rw [bind_app, notesAdd_eq]
            by_cases hdup :
                (({ w with rng := w.rng + 1 + 1 } : World).storeOf newId).notes.any
                  (fun m => m.id = note.id)
            · rw [if_pos hdup]
              exact BatchFrame.rng _ _ _
            · rw [if_neg hdup]
              simp only
              rw [bind_app, reportProgress_eq]
              simp only
              refine migrateBatch_compose newId oldK newK total note
                { id := note.id
                  metaCipher := ⟨newK.material, ⟨12, w.rng⟩, .json p⟩
                  metaIv := ⟨12, w.rng⟩
                  contentCipher := ⟨newK.material, ⟨12, w.rng + 1⟩, .json q⟩
                  contentIv := ⟨12, w.rng + 1⟩
                  createdAt := note.createdAt
                  updatedAt := note.updatedAt
                  schemaVersion := 1 }
                rest processed w _ ?_ ?_ ?_ (ih (processed + 1) _)
              · exact BatchFrame.trans (BatchFrame.rng _ _ _)
                  (BatchFrame.trans (BatchFrame.addNotes _ _ _) (BatchFrame.progress _ _ _))
              · simp [World.storeOf, World.setDb, lookupA_upsertA_self]
              · refine ⟨rfl, rfl, rfl, rfl, ?_, ?_, ?_, ?_⟩
                · rw [hd1]
                  simp [decField, Plaintext.asJson]
                · rw [hd2]
                  simp [decField, Plaintext.asJson]
                · rw [hd1]
                  rfl
                · rw [hd2]
                  rfl

theorem migrateGo_cases (oldId newId : String) (oldK newK : CryptoKey) (total : Nat)
    (hne : oldId ≠ newId) :
    ∀ (fuel processed offset : Nat) (w : World),
    total = (w.storeOf oldId).notes.length →
    total ≤ offset + fuel →
    (match migrateGo oldId newId oldK newK total fuel processed offset w with
     | (.ok _, w2) =>
         ∃ ms, (w2.storeOf newId).notes = (w.storeOf newId).notes ++ ms ∧
           List.Forall₂ (MigratedNote oldK.material newK.material)
             ((w.storeOf oldId).notes.drop offset) ms ∧
           BatchFrame newId w w2
     | (.error _, w2) => BatchFrame newId w w2) := by
  intro fuel
  induction fuel with
  | zero =>
    intro processed offset w htot hle
    simp only [migrateGo, pure_app]
    refine ⟨[], by simp, ?_, BatchFrame.refl _ _⟩
    rw [List.drop_eq_nil_of_le (by omega)]
    exact .nil
  | succ fuel ih =>
    intro processed offset w htot hle
    simp only [migrateGo]
    by_cases hlt : offset < total
    · rw [if_pos hlt]
      rw [bind_app, notesOffsetLimit_eq]
      simp only
      rw [bind_app]
      have hbatch := migrateBatch_cases newId oldK newK total
        (((w.storeOf oldId).notes.drop offset).take 50) processed w
      cases hb : migrateBatch newId oldK newK total processed
          (((w.storeOf oldId).notes.drop offset).take 50) w with
      | mk r w3 =>
        rw [hb] at hbatch
        cases r with
        | error e =>
          simp only
          exact hbatch
        | ok p2 =>
          simp only
          obtain ⟨ms1, hn1, hf1, hfr1⟩ := hbatch
          have hsame : w3.storeOf oldId = w.storeOf oldId :=
            storeOf_of_agreesExcept hfr1.1.2.1 oldId hne
          have ihs := ih p2 (offset + 50) w3 (by rw [hsame]; exact htot) (by omega)
          cases hrun : migrateGo oldId newId oldK newK total fuel p2 (offset + 50) w3 with
          | mk r2 w2 =>
            rw [hrun] at ihs
            cases r2 with
            | error e2 => exact BatchFrame.trans hfr1.1 ihs
            | ok p3 =>
              obtain ⟨ms2, hn2, hf2, hfr2⟩ := ihs
              refine ⟨ms1 ++ ms2, ?_, ?_, BatchFrame.trans hfr1.1 hfr2⟩
              · rw [hn2, hn1, List.append_assoc]
              · have hsplit :
                    (w.storeOf oldId).notes.drop offset =
                      ((w.storeOf oldId).notes.drop offset).take 50 ++
                        (w.storeOf oldId).notes.drop (offset + 50) := by
                  conv =>
                    lhs
                    rw [← List.take_append_drop 50 ((w.storeOf oldId).notes.drop offset)]
                  rw [List.drop_drop]
                rw [hsplit]
                rw [hsame] at hf2
                exact List.rel_append hf1 hf2
    · rw [if_neg hlt]
      simp only [pure_app]
      refine ⟨[], by simp, ?_, BatchFrame.refl _ _⟩
      rw [List.drop_eq_nil_of_le (by omega)]
      exact .nil

theorem getRandomValues_eq (n : Nat) (w : World) :
    getRandomValues n w = (.ok ⟨n, w.rng⟩, { w with rng := w.rng + 1 }) := rfl

theorem provisionNewVault_eq (new : String) (md : VaultMetadata) (nvid : String)
    (w : World) :
    provisionNewVault new md nvid w =
      if new = "" then (.error .passwordEmpty, { w with rng := w.rng + 2 })
      else if new.length < 8 then (.error .passwordTooShort, { w with rng := w.rng + 2 })
      else
        (.ok ⟨.random w.rng, true⟩,
          ({ w with rng := w.rng + 3 }).setDb nvid
            { w.storeOf nvid with
                settings :=
                  upsertA "vault_metadata" (.metadata ⟨md.name, md.createdAt⟩)
                    (upsertA "encrypted_data_key"
                      (.keyData ⟨⟨.derived new ⟨16, w.rng + 1⟩, ⟨12, w.rng + 2⟩,
                          .rawKey (.random w.rng)⟩, ⟨12, w.rng + 2⟩, ⟨16, w.rng + 1⟩⟩)
                      (w.storeOf nvid).settings) }) := by
  unfold provisionNewVault storeEncryptedDataKey
  rw [bind_app, generateDataKey_eq]
  simp only
  rw [bind_app, getRandomValues_eq]
  simp only
  rw [bind_app, deriveMasterKey_eq]
  by_cases h1 : new = ""
  · simp [h1, throwE_app]
  · by_cases h2 : new.length < 8
    · simp [h1, h2, throwE_app]
    · have h3 : ¬ (16 : Nat) = 0 := by omega
      simp only [h1, h2, h3, if_false, Bytes.length]
      rw [bind_app, encryptDataKey_eq]
      simp only
      rw [bind_app, settingsPut_eq]
      simp only
      rw [bind_app, settingsPut_eq]
      simp only
      rw [pure_app]
      simp only [Prod.mk.injEq]
      constructor
      · simp
      · simp [World.setDb, World.storeOf, lookupA_upsertA_self, upsertA_upsertA]

theorem verifyNote_pair (tn : EncryptedNote) (key : CryptoKey) (w : World) :
    ∃ r, verifyNote tn key w = (r, w) := by
  unfold verifyNote
  rw [tryCatchE_app, bind_app, decryptData_eq]
  by_cases h1 : tn.metaIv.length = 0
  · simp [h1, throwE_app]
  · cases hd1 : decField key.material tn.metaCipher tn.metaIv with
    | none => simp [h1, hd1, throwE_app]
    | some p =>
      simp only [h1, hd1, if_false]
      rw [bind_app, decryptData_eq]
      by_cases h2 : tn.contentIv.length = 0
      · simp [h2, throwE_app]
      · cases hd2 : decField key.material tn.contentCipher tn.contentIv with
        | none => simp [h2, hd2, throwE_app]
        | some q => simp [h2, hd2, pure_app]

theorem verifySample_frame (allNotes : List EncryptedNote) (testKey : CryptoKey) :
    ∀ (count : Nat) (w : World),
    (verifySample allNotes testKey count w).2.databases = w.databases ∧
    (verifySample allNotes testKey count w).2.sessionKey = w.sessionKey ∧
    (verifySample allNotes testKey count w).2.deleteBroken = w.deleteBroken := by
  intro count
  induction count with
  | zero => intro w; exact ⟨rfl, rfl, rfl⟩
  | succ k ih =>
    intro w
    simp only [verifySample]
    rw [bind_app, freshNat_eq]
    simp only
    rw [bind_app]
    obtain ⟨r, hr⟩ := verifyNote_pair
      (allNotes.getD (w.rng % allNotes.length) default) testKey { w with rng := w.rng + 1 }
    rw [hr]
    cases r with
    | error e => exact ⟨rfl, rfl, rfl⟩
    | ok u => exact ih { w with rng := w.rng + 1 }

theorem migratePhase_cases (vid nvid : String) (oldK newK : CryptoKey) (w : World)
    (hne : vid ≠ nvid) :
    match migratePhase vid nvid oldK newK w with
    | (.ok total, w2) =>
        total = (w.storeOf vid).notes.length ∧
        (∃ ms, (w2.storeOf nvid).notes = (w.storeOf nvid).notes ++ ms ∧
          List.Forall₂ (MigratedNote oldK.material newK.material) ((w.storeOf vid).notes) ms) ∧
        (∀ k, k ≠ "folders" →
          lookupA k (w2.storeOf nvid).settings = lookupA k (w.storeOf nvid).settings) ∧
        agreesExcept nvid w w2 ∧ w2.sessionKey = w.sessionKey ∧
        w2.deleteBroken = w.deleteBroken
    | (.error _, w2) => agreesExcept nvid w w2 ∧ w2.deleteBroken = w.deleteBroken := by
  unfold migratePhase migrateLoop
  rw [bind_app, notesCount_eq]
  simp only
  rw [bind_app]
  have hgo := migrateGo_cases vid nvid oldK newK ((w.storeOf vid).notes.length) hne
    ((w.storeOf vid).notes.length - 0) 0 0 w rfl (by omega)
  cases hg : migrateGo vid nvid oldK newK ((w.storeOf vid).notes.length)
      ((w.storeOf vid).notes.length - 0) 0 0 w with
  | mk r w3 =>
    rw [hg] at hgo
    cases r with
    | error e =>
      simp only
      exact ⟨hgo.2.1, hgo.2.2.2.1⟩
    | ok p2 =>
      simp only
      obtain ⟨ms, hn, hf, hfr⟩ := hgo
      rw [List.drop_zero] at hf
      rw [bind_app, settingsGet_eq]
      simp only
      have hsame : w3.storeOf vid = w.storeOf vid := storeOf_of_agreesExcept hfr.2.1 vid hne
      rw [hsame]
      cases hfold : lookupA "folders" (w.storeOf vid).settings with
      | none =>
        simp only [bind_app, pure_app]
        refine ⟨trivial, ⟨ms, hn, hf⟩, ?_, hfr.2.1, hfr.2.2.1, hfr.2.2.2.1⟩
        intro k _
        rw [hfr.1]
      | some d =>
        simp only [bind_app, settingsPut_eq, pure_app]
        refine ⟨trivial, ⟨ms, ?_, hf⟩, ?_, ?_, hfr.2.2.1, hfr.2.2.2.1⟩
        · rw [storeOf_setDb_self]
          exact hn
        · intro k hk
          rw [storeOf_setDb_self]
          simp only
          rw [lookupA_upsertA_ne _ _ _ _ hk, hfr.1]
        · exact agreesExcept_trans hfr.2.1 (agreesExcept_setDb _ _ _)

theorem verifyPhase_cases (vid nvid new : String) (total : Nat) (w : World) :
    match verifyPhase vid nvid new total w with
    | (.ok _, w2) =>
        w2.databases = w.databases ∧ w2.deleteBroken = w.deleteBroken ∧
        (w.storeOf nvid).notes.length = total ∧
        ∃ kd m, keyRecordOf w nvid = some kd ∧
          unwrapKM (.derived new kd.salt) kd.encryptedKey kd.keyIv = some m ∧
          w2.sessionKey = some ⟨m, true⟩ ∧
          new ≠ "" ∧ ¬ new.length < 8
    | (.error _, w2) => w2.databases = w.databases ∧ w2.deleteBroken = w.deleteBroken := by
  unfold verifyPhase
  rw [bind_app, notesCount_eq]
  simp only
  by_cases hcount : (w.storeOf nvid).notes.length ≠ total
  · rw [if_pos hcount]
    rw [bind_app, throwE_app]
    simp
  · rw [if_neg hcount]
    simp only [bind_app, pure_app, notesToArray_eq]
    by_cases hmiss :
        (((w.storeOf vid).notes.map EncryptedNote.id).dedup.filter
          (fun i => i ∉ ((w.storeOf nvid).notes.map EncryptedNote.id).dedup)).length > 0
    · rw [if_pos hmiss]
      simp only [bind_app, throwE_app]
      simp
    · rw [if_neg hmiss]
      simp only [bind_app, pure_app]
      rw [openVault_eq]
      cases hk : keyRecordOf w nvid with
      | none => simp
      | some kd =>
        simp only
        by_cases h1 : new = ""
        · simp only [if_pos h1]
          simp
        · rw [if_neg h1]
          by_cases h2 : new.length < 8
          · rw [if_pos h2]
            simp
          · rw [if_neg h2]
            by_cases h3 : kd.salt.length = 0
            · rw [if_pos h3]
              simp
            · rw [if_neg h3]
              by_cases h4 : kd.keyIv.length = 0
              · rw [if_pos h4]
                simp
              · rw [if_neg h4]
                cases hu : unwrapKM (.derived new kd.salt) kd.encryptedKey kd.keyIv with
                | none => simp
                | some m =>
                  simp only
                  by_cases h5 : min 5 total > 0
                  · rw [if_pos h5]
                    simp only [bind_app, notesToArray_eq, getKey_eq]
                    have hvs := verifySample_frame
                      (({ w with sessionKey := some ⟨m, true⟩ } : World).storeOf nvid).notes
                      ⟨m, true⟩ (min 5 total) { w with sessionKey := some ⟨m, true⟩ }
                    cases hv : verifySample
                        (({ w with sessionKey := some ⟨m, true⟩ } : World).storeOf nvid).notes
                        ⟨m, true⟩ (min 5 total)
                        { w with sessionKey := some ⟨m, true⟩ } with
                    | mk rv wv =>
                      rw [hv] at hvs
                      cases rv with
                      | error e => exact ⟨hvs.1, hvs.2.2⟩
                      | ok u =>
                        refine ⟨hvs.1, hvs.2.2, by omega, kd, m, rfl, hu, ?_, h1, h2⟩
                        rw [hvs.2.1]
                  · rw [if_neg h5]
                    rw [pure_app]
                    exact ⟨rfl, rfl, by omega, kd, m, rfl, hu, rfl, h1, h2⟩

end GullNotes

namespace GullNotes

theorem mav_compose (vid nvid new : String) (oldK : CryptoKey) (newKM : KeyMaterial)
    (kd0 : EncryptedKeyData) (w wp : World) (hne : vid ≠ nvid)
    (ha : keyRecordOf wp nvid = some kd0)
    (hb : (wp.storeOf nvid).notes = [])
    (hkd : kd0 = ⟨⟨.derived new ⟨16, w.rng + 1⟩, ⟨12, w.rng + 2⟩, .rawKey newKM⟩,
        ⟨12, w.rng + 2⟩, ⟨16, w.rng + 1⟩⟩)
    (hc : wp.storeOf vid = w.storeOf vid)
    (hd : agreesExcept nvid w wp)
    (he : wp.deleteBroken = w.deleteBroken) :
    match (migratePhase vid nvid oldK ⟨newKM, true⟩ >>= fun total =>
        verifyPhase vid nvid new total) wp with
    | (.ok _, w2) =>
        new ≠ "" ∧ ¬ new.length < 8 ∧
        keyRecordOf w2 nvid = some kd0 ∧
        (∃ ms, (w2.storeOf nvid).notes = ms ∧
          List.Forall₂ (MigratedNote oldK.material newKM) ((w.storeOf vid).notes) ms) ∧
        agreesExcept nvid w w2 ∧ w2.deleteBroken = w.deleteBroken ∧
        w2.sessionKey = some ⟨newKM, true⟩
    | (.error _, w2) => agreesExcept nvid w w2 ∧ w2.deleteBroken = w.deleteBroken := by
  rw [bind_app]
  have hmp := migratePhase_cases vid nvid oldK ⟨newKM, true⟩ wp hne
  cases hm : migratePhase vid nvid oldK ⟨newKM, true⟩ wp with
  | mk r w3 =>
    rw [hm] at hmp
    cases r with
    | error e => exact ⟨agreesExcept_trans hd hmp.1, hmp.2.trans he⟩
    | ok total =>
      simp only
      obtain ⟨htot, ⟨ms, hn3, hf3⟩, hsetf, hae3, hsk3, hdb3⟩ := hmp
      have hkr3 : keyRecordOf w3 nvid = some kd0 := by
        unfold keyRecordOf at ha ⊢
        rw [hsetf _ (by decide)]
        exact ha
      have hvp := verifyPhase_cases vid nvid new total w3
      cases hv : verifyPhase vid nvid new total w3 with
      | mk rv w4 =>
        rw [hv] at hvp
        cases rv with
        | error e =>
          exact ⟨agreesExcept_trans hd (agreesExcept_trans hae3
            (agreesExcept_of_eq_databases hvp.1)), (hvp.2.trans hdb3).trans he⟩
        | ok u =>
          obtain ⟨hdb4, hbk4, hlen, kd, m, hkd4, hum, hsk4, hne1, hne2⟩ := hvp
          have hkk : kd = kd0 := by
            rw [hkr3] at hkd4
            exact (Option.some.inj hkd4).symm
          have hmm : m = newKM := by
            rw [hkk, hkd] at hum
            simp [unwrapKM] at hum
            exact hum.symm
          have hst4 : w4.storeOf nvid = w3.storeOf nvid := by
            unfold World.storeOf
            rw [hdb4]
          refine ⟨hne1, hne2, ?_, ⟨ms, ?_, ?_⟩, ?_, ?_, ?_⟩
          · unfold keyRecordOf
            rw [hst4]
            unfold keyRecordOf at hkr3
            exact hkr3
          · rw [hst4, hn3, hb]
            simp
          · rw [hc] at hf3
            exact hf3
          · exact agreesExcept_trans hd (agreesExcept_trans hae3
              (agreesExcept_of_eq_databases hdb4))
          · exact (hbk4.trans hdb3).trans he
          · rw [hsk4, hmm]

theorem migrateAndVerify_cases (vid new : String) (oldK : CryptoKey) (md : VaultMetadata)
    (nvid : String) (w : World) (hne : vid ≠ nvid)
    (hfresh : lookupA nvid w.databases = none) :
    match migrateAndVerify vid new oldK md nvid w with
    | (.ok _, w2) =>
        new ≠ "" ∧ ¬ new.length < 8 ∧
        keyRecordOf w2 nvid =
          some ⟨⟨.derived new ⟨16, w.rng + 1⟩, ⟨12, w.rng + 2⟩, .rawKey (.random w.rng)⟩,
            ⟨12, w.rng + 2⟩, ⟨16, w.rng + 1⟩⟩ ∧
        (∃ ms, (w2.storeOf nvid).notes = ms ∧
          List.Forall₂ (MigratedNote oldK.material (.random w.rng)) ((w.storeOf vid).notes) ms) ∧
        agreesExcept nvid w w2 ∧ w2.deleteBroken = w.deleteBroken ∧
        w2.sessionKey = some ⟨.random w.rng, true⟩
    | (.error _, w2) => agreesExcept nvid w w2 ∧ w2.deleteBroken = w.deleteBroken := by
  have hwse : w.storeOf nvid = Store.empty := by
    unfold World.storeOf
    rw [hfresh]
    rfl
  unfold migrateAndVerify
  rw [bind_app, provisionNewVault_eq]
  by_cases h1 : new = ""
  · rw [if_pos h1]
    exact ⟨agreesExcept_of_eq_databases rfl, rfl⟩
  · rw [if_neg h1]
    by_cases h2 : new.length < 8
    · rw [if_pos h2]
      exact ⟨agreesExcept_of_eq_databases rfl, rfl⟩
    · rw [if_neg h2]
      simp only
      refine mav_compose vid nvid new oldK (.random w.rng) _ w _ hne ?_ ?_ rfl ?_ ?_ rfl
      · unfold keyRecordOf
        rw [storeOf_setDb_self]
        simp only
        rw [lookupA_upsertA_ne _ _ _ _ (by decide), lookupA_upsertA_self]
      · rw [storeOf_setDb_self]
        simp only
        rw [hwse]
        rfl
      · rw [storeOf_setDb_ne _ _ _ _ hne]
        unfold World.storeOf
        simp
      · exact agreesExcept_trans (agreesExcept_of_eq_databases rfl) (agreesExcept_setDb _ _ _)

theorem keyRecordOf_isSome_db (w : World) (vid : String) (okd : EncryptedKeyData)
    (h : keyRecordOf w vid = some okd) : (lookupA vid w.databases).isSome := by
  cases hl : lookupA vid w.databases with
  | none =>
    exfalso
    unfold keyRecordOf World.storeOf at h
    rw [hl] at h
    simp [Store.empty, lookupA] at h
  | some s => rfl

theorem cleanupThrow_spec (nvid : String) (e : JsError) (wB : World) :
    ∃ wC, (tryCatchE (deleteVault nvid) (fun _ => (pure () : M Unit)) >>= fun _ =>
        (throwE e : M String)) wB = (.error e, wC) ∧
      (∀ k, k ≠ nvid → lookupA k wC.databases = lookupA k wB.databases) ∧
      (nvid ∉ wB.deleteBroken → lookupA nvid wC.databases = none) := by
  rw [bind_app, tryCatchE_app, deleteVault_eq]
  by_cases hex : (lookupA nvid wB.databases).isSome
  · rw [if_pos hex]
    by_cases hbr : nvid ∈ wB.deleteBroken
    · rw [if_pos hbr]
      simp only [pure_app, throwE_app]
      exact ⟨wB, rfl, fun k _ => rfl, fun hnb => absurd hbr hnb⟩
    · rw [if_neg hbr]
      simp only [throwE_app]
      exact ⟨_, rfl, fun k hk => lookupA_removeA_ne _ _ _ hk, fun _ => lookupA_removeA_self _ _⟩
  · rw [if_neg hex]
    simp only [throwE_app]
    refine ⟨wB, rfl, fun k _ => rfl, fun _ => ?_⟩
    cases hl : lookupA nvid wB.databases with
    | none => rfl
    | some s =>
      rw [hl] at hex
      simp at hex

theorem changeVaultPassword_cases (vid cur new : String) (w : World)
    (hne : vid ≠ mkTempVaultId w.rng)
    (hfresh : lookupA (mkTempVaultId w.rng) w.databases = none) :
    match changeVaultPassword vid cur new w with
    | (.ok r, w2) =>
        r = mkTempVaultId w.rng ∧
        lookupA vid w2.databases = none ∧
        (∀ k, k ≠ mkTempVaultId w.rng → k ≠ vid →
          lookupA k w2.databases = lookupA k w.databases) ∧
        new ≠ "" ∧ ¬ new.length < 8 ∧
        keyRecordOf w2 r =
          some ⟨⟨.derived new ⟨16, w.rng + 2⟩, ⟨12, w.rng + 3⟩, .rawKey (.random (w.rng + 1))⟩,
            ⟨12, w.rng + 3⟩, ⟨16, w.rng + 2⟩⟩ ∧
        ∃ okd oldm ms,
          keyRecordOf w vid = some okd ∧
          unwrapKM (.derived cur okd.salt) okd.encryptedKey okd.keyIv = some oldm ∧
          (w2.storeOf r).notes = ms ∧
          List.Forall₂ (MigratedNote oldm (.random (w.rng + 1))) ((w.storeOf vid).notes) ms
    | (.error _, w2) =>
        lookupA vid w2.databases = lookupA vid w.databases ∧
        (mkTempVaultId w.rng ∉ w.deleteBroken →
          lookupA (mkTempVaultId w.rng) w2.databases = none) ∧
        (∀ k, k ≠ mkTempVaultId w.rng → k ≠ vid →
          lookupA k w2.databases = lookupA k w.databases) := by
  unfold changeVaultPassword
  rw [bind_app, retrieveEncryptedDataKey_eq]
  cases hokd : keyRecordOf w vid with
  | none =>
    simp only [throwE_app]
    exact ⟨by trivial, fun _ => hfresh, by simp⟩
  | some okd =>
    simp only
    rw [bind_app, deriveMasterKey_eq]
    by_cases p1 : cur = ""
    · rw [if_pos p1]
      exact ⟨by trivial, fun _ => hfresh, by simp⟩
    · rw [if_neg p1]
      by_cases p2 : cur.length < 8
      · rw [if_pos p2]
        exact ⟨by trivial, fun _ => hfresh, by simp⟩
      · rw [if_neg p2]
        by_cases p3 : okd.salt.length = 0
        · rw [if_pos p3]
          exact ⟨by trivial, fun _ => hfresh, by simp⟩
        · rw [if_neg p3]
          simp only
          rw [bind_app, tryCatchE_app, decryptDataKey_eq]
          by_cases p4 : okd.keyIv.length = 0
          · rw [if_pos p4]
            simp only [throwE_app]
            exact ⟨by trivial, fun _ => hfresh, by simp⟩
          · rw [if_neg p4]
            cases hu : unwrapKM (.derived cur okd.salt) okd.encryptedKey okd.keyIv with
            | none =>
              simp only [throwE_app]
              exact ⟨by trivial, fun _ => hfresh, by simp⟩
            | some oldm =>
              simp only
              rw [bind_app, getVaultMetadata_eq]
              cases hmd : metaRecordOf w vid with
              | none =>
                simp only [throwE_app]
                exact ⟨by trivial, fun _ => hfresh, by simp⟩
              | some md =>
                simp only
                rw [bind_app, freshNat_eq]
                simp only
                unfold rollbackOnError
                rw [tryCatchE_app]
                rw [bind_app]
                have hmav := migrateAndVerify_cases vid new ⟨oldm, true⟩ md
                  (mkTempVaultId w.rng) { w with rng := w.rng + 1 } hne hfresh
                cases hb : migrateAndVerify vid new ⟨oldm, true⟩ md (mkTempVaultId w.rng)
                    { w with rng := w.rng + 1 } with
                | mk rb wB =>
                  rw [hb] at hmav
                  cases rb with
                  | error e =>
                    simp only
                    obtain ⟨haeB, hbkB⟩ := hmav
                    obtain ⟨wC, hC1, hC2, hC3⟩ :=
                      cleanupThrow_spec (mkTempVaultId w.rng) e wB
                    rw [hC1]
                    refine ⟨?_, ?_, ?_⟩
                    · rw [hC2 vid hne, haeB vid hne]
                    · intro hnb
                      exact hC3 (by rw [hbkB]; exact hnb)
                    · intro k hk1 hk2
                      rw [hC2 k hk1, haeB k hk1]
                  | ok _u =>
                    simp only
                    rw [bind_app, deleteVault_eq]
                    obtain ⟨hne1, hne2, hkr, ⟨ms, hnotes, hfa⟩, hae, hbk, hskB⟩ := hmav
                    have hvid_lookup : lookupA vid wB.databases = lookupA vid w.databases :=
                      hae vid hne
                    have hvsome : (lookupA vid wB.databases).isSome := by
                      rw [hvid_lookup]
                      exact keyRecordOf_isSome_db w vid okd hokd
                    rw [if_pos hvsome]
                    by_cases hbr : vid ∈ wB.deleteBroken
                    · rw [if_pos hbr]
                      simp only
                      obtain ⟨wC, hC1, hC2, hC3⟩ :=
                        cleanupThrow_spec (mkTempVaultId w.rng) .deleteDatabaseFailed wB
                      rw [hC1]
                      refine ⟨?_, ?_, ?_⟩
                      · rw [hC2 vid hne, hvid_lookup]
                      · intro hnb
                        exact hC3 (by rw [hbk]; exact hnb)
                      · intro k hk1 hk2
                        rw [hC2 k hk1, hae k hk1]
                    · rw [if_neg hbr]
                      simp only [pure_app]
                      have hstC : lookupA (mkTempVaultId w.rng) (removeA vid wB.databases) =
                          lookupA (mkTempVaultId w.rng) wB.databases :=
                        lookupA_removeA_ne _ _ _ (Ne.symm hne)
                      refine ⟨by trivial, lookupA_removeA_self _ _, ?_, hne1, hne2, ?_,
                        okd, oldm, ms, by trivial, hu, ?_, ?_⟩
                      · intro k hk1 hk2
                        rw [lookupA_removeA_ne _ _ _ hk2, hae k hk1]
                      · unfold keyRecordOf World.storeOf
                        rw [hstC]
                        unfold keyRecordOf World.storeOf at hkr
                        exact hkr
                      · unfold World.storeOf
                        rw [hstC]
                        unfold World.storeOf at hnotes
                        exact hnotes
                      · exact hfa

end GullNotes

namespace GullNotes

deriving instance DecidableEq for Except


theorem changeVaultPassword_wrongCurrent (vid cur new : String) (w : World)
    (okd : EncryptedKeyData)
    (hokd : keyRecordOf w vid = some okd)
    (h1 : cur ≠ "") (h2 : ¬ cur.length < 8) (h3 : okd.salt.length ≠ 0)
    (hfail : okd.keyIv.length = 0 ∨
      unwrapKM (.derived cur okd.salt) okd.encryptedKey okd.keyIv = none) :
    changeVaultPassword vid cur new w = (.error .currentPasswordIncorrect, w) := by
  unfold changeVaultPassword
  rw [bind_app, retrieveEncryptedDataKey_eq]
  rw [hokd]
  simp only
  rw [bind_app, deriveMasterKey_eq, if_neg h1, if_neg h2, if_neg h3]
  simp only
  rw [bind_app, tryCatchE_app, decryptDataKey_eq]
  by_cases p4 : okd.keyIv.length = 0
  · rw [if_pos p4]
    rfl
  · rw [if_neg p4]
    rw [hfail.resolve_left p4]
    rfl

theorem forall₂_migrated_map_id {a b : KeyMaterial} :
    ∀ {l m : List EncryptedNote}, List.Forall₂ (MigratedNote a b) l m →
    l.map EncryptedNote.id = m.map EncryptedNote.id := by
  intro l m h
  induction h with
  | nil => rfl
  | cons h1 h2 ih =>
    simp only [List.map_cons, ih]
    rw [h1.1]

theorem forall₂_migrated_decryptable {a b : KeyMaterial} :
    ∀ {l m : List EncryptedNote}, List.Forall₂ (MigratedNote a b) l m →
    ∀ n ∈ m, (decField b n.metaCipher n.metaIv).isSome ∧
      (decField b n.contentCipher n.contentIv).isSome := by
  intro l m h
  induction h with
  | nil => intro n hn; cases hn
  | cons h1 h2 ih =>
    intro n hn
    cases hn with
    | head =>
      refine ⟨?_, ?_⟩
      · rw [h1.2.2.2.2.1]
        exact h1.2.2.2.2.2.2.1
      · rw [h1.2.2.2.2.2.1]
        exact h1.2.2.2.2.2.2.2
    | tail _ hmem => exact ih n hmem

end GullNotes

namespace GullNotes

/-- C5: for every JSON-serializable payload `data` and every AES-GCM key,
decrypting the output of `encryptData` with `decryptData` under the same
key (passing back the returned ciphertext and IV) returns the original
payload. -/
theorem claimC5_encrypt_decrypt_roundtrip (data : Payload) (key : CryptoKey) (w : World) :
    ((encryptData data key >>= fun r => decryptData r.ciphertext r.iv key) w).1 =
      .ok data := by
  rw [bind_app, encryptData_eq]
  simp only
  rw [decryptData_eq]
  simp [decField, Plaintext.asJson, Bytes.length]

/-- C6: after input validation (a non-empty IV), every failure of
`decryptData` is the single generic error `Decryption failed`, every
failure of `decryptDataKey` is the generic `Failed to decrypt data key`,
and the two strings are distinct; neither reveals which failure mode
occurred (wrong key, wrong IV, corrupted ciphertext and tampered tag all
take the same path). -/
theorem claimC6_generic_decrypt_errors (ct : Ciphertext) (iv : Bytes) (key : CryptoKey)
    (w : World) (hiv : iv.length ≠ 0) :
    (∀ e w2, decryptData ct iv key w = (.error e, w2) → e = .decryptionFailed) ∧
    (∀ e w2, decryptDataKey ct iv key w = (.error e, w2) → e = .failedToDecryptDataKey) ∧
    JsError.decryptionFailed.message = "Decryption failed" ∧
    JsError.failedToDecryptDataKey.message = "Failed to decrypt data key" ∧
    JsError.decryptionFailed.message ≠ JsError.failedToDecryptDataKey.message := by
  refine ⟨?_, ?_, rfl, rfl, by decide⟩
  · intro e w2 h
    rw [decryptData_eq, if_neg hiv] at h
    cases hd : decField key.material ct iv with
    | some p =>
      rw [hd] at h
      simp at h
    | none =>
      rw [hd] at h
      simp only [Prod.mk.injEq] at h
      exact (Except.error.inj h.1).symm
  · intro e w2 h
    rw [decryptDataKey_eq, if_neg hiv] at h
    cases hd : unwrapKM key.material ct iv with
    | some m =>
      rw [hd] at h
      simp at h
    | none =>
      rw [hd] at h
      simp only [Prod.mk.injEq] at h
      exact (Except.error.inj h.1).symm

/-- Witness for C6: a concrete decryption under the wrong key. -/
theorem claimC6_witness :
    (∀ e w2, decryptData cexKeyRecord.encryptedKey cexKeyIv ⟨.random 99, true⟩ cexWorld =
        (.error e, w2) → e = .decryptionFailed) ∧
    (∀ e w2, decryptDataKey cexKeyRecord.encryptedKey cexKeyIv ⟨.random 99, true⟩ cexWorld =
        (.error e, w2) → e = .failedToDecryptDataKey) ∧
    JsError.decryptionFailed.message = "Decryption failed" ∧
    JsError.failedToDecryptDataKey.message = "Failed to decrypt data key" ∧
    JsError.decryptionFailed.message ≠ JsError.failedToDecryptDataKey.message :=
  claimC6_generic_decrypt_errors cexKeyRecord.encryptedKey cexKeyIv ⟨.random 99, true⟩
    cexWorld (by decide)

/-- C7: with a stored Wrapped Key Record present and a syntactically valid
password, `openVault` either unwraps the Data Key, stores it in the
session key manager and returns the store handle, or — when unwrapping
fails for any reason (bad IV buffer, wrong key, tampered record) — throws
exactly the single generic `Invalid password`. -/
theorem claimC7_openVault_generic_invalid_password (vid pw : String) (w : World)
    (kd : EncryptedKeyData) (hk : keyRecordOf w vid = some kd)
    (h1 : pw ≠ "") (h2 : ¬ pw.length < 8) (h3 : kd.salt.length ≠ 0) :
    (∀ m, kd.keyIv.length ≠ 0 →
      unwrapKM (.derived pw kd.salt) kd.encryptedKey kd.keyIv = some m →
      openVault vid pw w = (.ok vid, { w with sessionKey := some ⟨m, true⟩ })) ∧
    (kd.keyIv.length = 0 ∨ unwrapKM (.derived pw kd.salt) kd.encryptedKey kd.keyIv = none →
      openVault vid pw w = (.error .invalidPassword, w)) ∧
    JsError.invalidPassword.message = "Invalid password" := by
  refine ⟨?_, ?_, rfl⟩
  · intro m h4 hm
    rw [openVault_eq, hk]
    simp only
    rw [if_neg h1, if_neg h2, if_neg h3, if_neg h4, hm]
  · intro hor
    rw [openVault_eq, hk]
    simp only
    rw [if_neg h1, if_neg h2, if_neg h3]
    rcases hor with h4 | hm
    · rw [if_pos h4]
    · by_cases h4 : kd.keyIv.length = 0
      · rw [if_pos h4]
      · rw [if_neg h4, hm]

/-- Witness for C7: the concrete example vault, opened with its real
password (success case) and subject to the failure case. -/
theorem claimC7_witness :
    (∀ m, cexKeyRecord.keyIv.length ≠ 0 →
      unwrapKM (.derived "password-old" cexKeyRecord.salt) cexKeyRecord.encryptedKey
        cexKeyRecord.keyIv = some m →
      openVault "vault_A" "password-old" cexWorld =
        (.ok "vault_A", { cexWorld with sessionKey := some ⟨m, true⟩ })) ∧
    (cexKeyRecord.keyIv.length = 0 ∨
      unwrapKM (.derived "password-old" cexKeyRecord.salt) cexKeyRecord.encryptedKey
        cexKeyRecord.keyIv = none →
      openVault "vault_A" "password-old" cexWorld = (.error .invalidPassword, cexWorld)) ∧
    JsError.invalidPassword.message = "Invalid password" :=
  claimC7_openVault_generic_invalid_password "vault_A" "password-old" cexWorld cexKeyRecord
    (by decide) (by decide) (by decide) (by decide)

/-- C9: `removePasskey` persists exactly the previous credential list with
every entry whose id equals the removed credential id filtered out, and
leaves the vault notes, every other settings record, every other
database and the session key unchanged. -/
theorem claimC9_removePasskey_frame (vid cid k db2 : String) (w : World)
    (hk : k ≠ "webauthn_credentials") (hdb : db2 ≠ vid) :
    (removePasskey vid cid w).1 = .ok () ∧
    credsOf (removePasskey vid cid w).2 vid =
      (credsOf w vid).filter (fun c => c.id ≠ cid) ∧
    ((removePasskey vid cid w).2.storeOf vid).notes = (w.storeOf vid).notes ∧
    lookupA k ((removePasskey vid cid w).2.storeOf vid).settings =
      lookupA k (w.storeOf vid).settings ∧
    lookupA db2 (removePasskey vid cid w).2.databases = lookupA db2 w.databases ∧
    (removePasskey vid cid w).2.sessionKey = w.sessionKey := by
  rw [removePasskey_eq]
  refine ⟨rfl, ?_, ?_, ?_, ?_, rfl⟩
  · unfold credsOf
    rw [storeOf_setDb_self]
    simp only
    rw [lookupA_upsertA_self]
  · rw [storeOf_setDb_self]
  · rw [storeOf_setDb_self]
    simp only
    rw [lookupA_upsertA_ne _ _ _ _ hk]
  · exact lookupA_setDb_ne _ _ _ _ hdb

/-- Witness for C9: removing the registered credential `cred-1` from the
concrete example vault. -/
theorem claimC9_witness :
    (removePasskey "vault_A" "cred-1" cexWorld).1 = .ok () ∧
    credsOf (removePasskey "vault_A" "cred-1" cexWorld).2 "vault_A" =
      (credsOf cexWorld "vault_A").filter (fun c => c.id ≠ "cred-1") ∧
    ((removePasskey "vault_A" "cred-1" cexWorld).2.storeOf "vault_A").notes =
      (cexWorld.storeOf "vault_A").notes ∧
    lookupA "vault_metadata"
        ((removePasskey "vault_A" "cred-1" cexWorld).2.storeOf "vault_A").settings =
      lookupA "vault_metadata" (cexWorld.storeOf "vault_A").settings ∧
    lookupA "vault_B" (removePasskey "vault_A" "cred-1" cexWorld).2.databases =
      lookupA "vault_B" cexWorld.databases ∧
    (removePasskey "vault_A" "cred-1" cexWorld).2.sessionKey = cexWorld.sessionKey :=
  claimC9_removePasskey_frame "vault_A" "cred-1" "vault_metadata" "vault_B" cexWorld
    (by decide) (by decide)

/-- C10: when no Wrapped Key Record is persisted, `openVault` throws
`Vault data key not found` with the store untouched (before any key
derivation or decryption), an error distinct from the generic
`Invalid password`. -/
theorem claimC10_missing_key_record (vid pw : String) (w : World)
    (h : keyRecordOf w vid = none) :
    openVault vid pw w = (.error .vaultDataKeyNotFound, w) ∧
    JsError.vaultDataKeyNotFound.message = "Vault data key not found" ∧
    JsError.vaultDataKeyNotFound ≠ JsError.invalidPassword ∧
    JsError.vaultDataKeyNotFound.message ≠ JsError.invalidPassword.message := by
  refine ⟨?_, rfl, by decide, by decide⟩
  rw [openVault_eq, h]

/-- Witness for C10: opening a database name that holds no vault. -/
theorem claimC10_witness :
    openVault "vault_missing" "pw-123456" cexWorld =
      (.error .vaultDataKeyNotFound, cexWorld) ∧
    JsError.vaultDataKeyNotFound.message = "Vault data key not found" ∧
    JsError.vaultDataKeyNotFound ≠ JsError.invalidPassword ∧
    JsError.vaultDataKeyNotFound.message ≠ JsError.invalidPassword.message :=
  claimC10_missing_key_record "vault_missing" "pw-123456" cexWorld (by decide)

end GullNotes

namespace GullNotes

/-- C2: with the stored Wrapped Key Record present and a syntactically
valid but wrong current password (unwrapping the old Data Key fails),
`changeVaultPassword` throws `Current password is incorrect` and the
world — every database, settings record, note, session key, and counter —
is byte-for-byte identical to the initial one: no temporary store exists
and the vault still opens with the original password. -/
theorem claimC2_wrong_current_password (vid cur new : String) (w : World)
    (okd : EncryptedKeyData) (hokd : keyRecordOf w vid = some okd)
    (h1 : cur ≠ "") (h2 : ¬ cur.length < 8) (h3 : okd.salt.length ≠ 0)
    (hfail : okd.keyIv.length = 0 ∨
      unwrapKM (.derived cur okd.salt) okd.encryptedKey okd.keyIv = none) :
    changeVaultPassword vid cur new w = (.error .currentPasswordIncorrect, w) ∧
    JsError.currentPasswordIncorrect.message = "Current password is incorrect" :=
  ⟨changeVaultPassword_wrongCurrent vid cur new w okd hokd h1 h2 h3 hfail, rfl⟩

/-- Witness for C2: the concrete example vault with a wrong current
password. -/
theorem claimC2_witness :
    changeVaultPassword "vault_A" "password-wrong" "password-new" cexWorld =
      (.error .currentPasswordIncorrect, cexWorld) ∧
    JsError.currentPasswordIncorrect.message = "Current password is incorrect" :=
  claimC2_wrong_current_password "vault_A" "password-wrong" "password-new" cexWorld
    cexKeyRecord (by decide) (by decide) (by decide) (by decide) (Or.inr (by decide))

/-- C8: the code stores a 16-byte salt (not the 32-byte salt the
documentation, the `generateSalt` helper and the repository's own tests
specify) in the Wrapped Key Record, both on `createVault` and on the
Provision phase of `changeVaultPassword`; the key-wrapping IV is 12
bytes as specified. -/
theorem claimC8_salt_is_sixteen_bytes :
    ((keyRecordOf (createVault "Salt Test Vault" "test-password-123" cexWorld).2
        "vault_0").map (fun kd => (kd.salt.length, kd.keyIv.length))) = some (16, 12) ∧
    ((keyRecordOf (changeVaultPassword "vault_A" "password-old" "password-new" cexWorld).2
        "vault_0_temp").map (fun kd => (kd.salt.length, kd.keyIv.length))) =
      some (16, 12) ∧
    (16 : Nat) ≠ 32 :=
  ⟨by decide, by decide, by decide⟩

/-- C1 (amended): when `changeVaultPassword` returns a new vault id, the
new store holds exactly N migrated records — same ids, same timestamps,
fields decrypting under the new Data Key to the plaintexts the old fields
held under the old Data Key — and the new store opens with the new
password; but opening with the OLD vault identifier afterwards throws
`Vault data key not found` (the old store was deleted), not
`Invalid password` as the claim stated. -/
theorem claimC1_rotation_happy_path (vid cur new : String) (w : World) (r : String)
    (w2 : World)
    (hne : vid ≠ mkTempVaultId w.rng)
    (hfresh : lookupA (mkTempVaultId w.rng) w.databases = none)
    (hrun : changeVaultPassword vid cur new w = (.ok r, w2)) :
    (∃ okd oldm ms,
      keyRecordOf w vid = some okd ∧
      unwrapKM (.derived cur okd.salt) okd.encryptedKey okd.keyIv = some oldm ∧
      (w2.storeOf r).notes = ms ∧
      List.Forall₂ (MigratedNote oldm (.random (w.rng + 1))) ((w.storeOf vid).notes) ms ∧
      ms.length = (w.storeOf vid).notes.length) ∧
    (openVault r new w2).1 = .ok r ∧
    (∀ pw, openVault vid pw w2 = (.error .vaultDataKeyNotFound, w2)) ∧
    JsError.vaultDataKeyNotFound.message = "Vault data key not found" := by
  have hc := changeVaultPassword_cases vid cur new w hne hfresh
  rw [hrun] at hc
  obtain ⟨hr, hvid, hframe, hn1, hn2, hkr, okd, oldm, ms, hokd, hu, hnotes, hfa⟩ := hc
  refine ⟨⟨okd, oldm, ms, hokd, hu, hnotes, hfa, (List.Forall₂.length_eq hfa).symm⟩,
    ?_, ?_, rfl⟩
  · rw [openVault_eq, hkr]
    simp only
    rw [if_neg hn1, if_neg hn2]
    simp [unwrapKM]
  · intro pw
    have hnone : keyRecordOf w2 vid = none := by
      unfold keyRecordOf World.storeOf
      rw [hvid]
      simp [Store.empty, lookupA]
    rw [openVault_eq, hnone]

/-- Counterexample for C1 as stated: after a successful rotation of the
concrete example vault, opening the OLD vault identifier throws
`Vault data key not found`, not `Invalid password`. -/
theorem claimC1_counterexample :
    (changeVaultPassword "vault_A" "password-old" "password-new" cexWorld).1 =
      .ok "vault_0_temp" ∧
    (openVault "vault_A" "password-old"
        (changeVaultPassword "vault_A" "password-old" "password-new" cexWorld).2).1 =
      .error .vaultDataKeyNotFound ∧
    JsError.vaultDataKeyNotFound.message = "Vault data key not found" ∧
    JsError.vaultDataKeyNotFound.message ≠ JsError.invalidPassword.message :=
  ⟨by decide, by decide, rfl, by decide⟩

/-- Witness for C1 (amended): the concrete example vault rotated from
`password-old` to `password-new`. -/
theorem claimC1_witness :
    (∃ okd oldm ms,
      keyRecordOf cexWorld "vault_A" = some okd ∧
      unwrapKM (.derived "password-old" okd.salt) okd.encryptedKey okd.keyIv = some oldm ∧
      (((changeVaultPassword "vault_A" "password-old" "password-new" cexWorld).2.storeOf
          "vault_0_temp").notes = ms) ∧
      List.Forall₂ (MigratedNote oldm (.random (cexWorld.rng + 1)))
        ((cexWorld.storeOf "vault_A").notes) ms ∧
      ms.length = (cexWorld.storeOf "vault_A").notes.length) ∧
    (openVault "vault_0_temp" "password-new"
        (changeVaultPassword "vault_A" "password-old" "password-new" cexWorld).2).1 =
      .ok "vault_0_temp" ∧
    (∀ pw, openVault "vault_A" pw
        (changeVaultPassword "vault_A" "password-old" "password-new" cexWorld).2 =
      (.error .vaultDataKeyNotFound,
        (changeVaultPassword "vault_A" "password-old" "password-new" cexWorld).2)) ∧
    JsError.vaultDataKeyNotFound.message = "Vault data key not found" :=
  claimC1_rotation_happy_path "vault_A" "password-old" "password-new" cexWorld
    "vault_0_temp" (changeVaultPassword "vault_A" "password-old" "password-new" cexWorld).2
    (by decide) (by decide)
    (by
      have h1 : (changeVaultPassword "vault_A" "password-old" "password-new" cexWorld).1 =
          .ok "vault_0_temp" := by decide
      rw [← h1])

/-- C3: every failing run of `changeVaultPassword` leaves the old store
untouched and every unrelated database unchanged, and deletes the
temporary store when its deletion is not itself broken; and for ANY body
error, the rollback wrapper deletes the temporary store best-effort,
swallows a failed cleanup deletion, touches nothing but the temporary
store, and re-throws the original error unchanged. -/
theorem claimC3_rollback_on_error (vid cur new : String) (w : World)
    (hne : vid ≠ mkTempVaultId w.rng)
    (hfresh : lookupA (mkTempVaultId w.rng) w.databases = none) :
    (∀ e w2, changeVaultPassword vid cur new w = (.error e, w2) →
      lookupA vid w2.databases = lookupA vid w.databases ∧
      (mkTempVaultId w.rng ∉ w.deleteBroken →
        lookupA (mkTempVaultId w.rng) w2.databases = none) ∧
      (∀ k, k ≠ mkTempVaultId w.rng → k ≠ vid →
        lookupA k w2.databases = lookupA k w.databases)) ∧
    (∀ (body : M String) (nvid : String) (w1 : World) (e : JsError) (w2 : World),
      body w1 = (.error e, w2) →
      ∃ w3, rollbackOnError nvid body w1 = (.error e, w3) ∧
        ∀ k, k ≠ nvid → lookupA k w3.databases = lookupA k w2.databases) := by
  constructor
  · intro e w2 hrun
    have hc := changeVaultPassword_cases vid cur new w hne hfresh
    rw [hrun] at hc
    exact hc
  · intro body nvid w1 e w2 hbody
    obtain ⟨w3, h1, h2, _⟩ := cleanupThrow_spec nvid e w2
    refine ⟨w3, ?_, h2⟩
    unfold rollbackOnError
    rw [tryCatchE_app, hbody]
    exact h1

/-- Witness for C3: the concrete example vault with a wrong current
password (a failing run). -/
theorem claimC3_witness :
    (∀ e w2, changeVaultPassword "vault_A" "password-wrong" "password-new" cexWorld =
        (.error e, w2) →
      lookupA "vault_A" w2.databases = lookupA "vault_A" cexWorld.databases ∧
      (mkTempVaultId cexWorld.rng ∉ cexWorld.deleteBroken →
        lookupA (mkTempVaultId cexWorld.rng) w2.databases = none) ∧
      (∀ k, k ≠ mkTempVaultId cexWorld.rng → k ≠ "vault_A" →
        lookupA k w2.databases = lookupA k cexWorld.databases)) ∧
    (∀ (body : M String) (nvid : String) (w1 : World) (e : JsError) (w2 : World),
      body w1 = (.error e, w2) →
      ∃ w3, rollbackOnError nvid body w1 = (.error e, w3) ∧
        ∀ k, k ≠ nvid → lookupA k w3.databases = lookupA k w2.databases) :=
  claimC3_rollback_on_error "vault_A" "password-wrong" "password-new" cexWorld
    (by decide) (by decide)

/-- C4: the old store is deleted only on a fully successful run — on any
error it is untouched — and success implies every Verify-New check held:
equal note counts, every old note id present in the new store, the new
store re-opens with the new password exactly as a real unlock, and every
(hence any sampled) note of the new store decrypts under the new Data
Key; the new vault identifier is returned. -/
theorem claimC4_verify_before_commit (vid cur new : String) (w : World)
    (hne : vid ≠ mkTempVaultId w.rng)
    (hfresh : lookupA (mkTempVaultId w.rng) w.databases = none) :
    (∀ r w2, changeVaultPassword vid cur new w = (.ok r, w2) →
      r = mkTempVaultId w.rng ∧
      lookupA vid w2.databases = none ∧
      (w2.storeOf r).notes.length = (w.storeOf vid).notes.length ∧
      ((w.storeOf vid).notes.map EncryptedNote.id =
        (w2.storeOf r).notes.map EncryptedNote.id) ∧
      (openVault r new w2).1 = .ok r ∧
      (∀ n ∈ (w2.storeOf r).notes,
        (decField (.random (w.rng + 1)) n.metaCipher n.metaIv).isSome ∧
        (decField (.random (w.rng + 1)) n.contentCipher n.contentIv).isSome)) ∧
    (∀ e w2, changeVaultPassword vid cur new w = (.error e, w2) →
      lookupA vid w2.databases = lookupA vid w.databases) := by
  constructor
  · intro r w2 hrun
    have hc := changeVaultPassword_cases vid cur new w hne hfresh
    rw [hrun] at hc
    obtain ⟨hr, hvid, hframe, hn1, hn2, hkr, okd, oldm, ms, hokd, hu, hnotes, hfa⟩ := hc
    refine ⟨hr, hvid, ?_, ?_, ?_, ?_⟩
    · rw [hnotes]
      exact (List.Forall₂.length_eq hfa).symm
    · rw [hnotes]
      exact forall₂_migrated_map_id hfa
    · rw [openVault_eq, hkr]
      simp only
      rw [if_neg hn1, if_neg hn2]
      simp [unwrapKM]
    · rw [hnotes]
      exact forall₂_migrated_decryptable hfa
  · intro e w2 hrun
    have hc := changeVaultPassword_cases vid cur new w hne hfresh
    rw [hrun] at hc
    exact hc.1

/-- Witness for C4: the concrete example vault. -/
theorem claimC4_witness :
    (∀ r w2, changeVaultPassword "vault_A" "password-old" "password-new" cexWorld =
        (.ok r, w2) →
      r = mkTempVaultId cexWorld.rng ∧
      lookupA "vault_A" w2.databases = none ∧
      (w2.storeOf r).notes.length = (cexWorld.storeOf "vault_A").notes.length ∧
      ((cexWorld.storeOf "vault_A").notes.map EncryptedNote.id =
        (w2.storeOf r).notes.map EncryptedNote.id) ∧
      (openVault r "password-new" w2).1 = .ok r ∧
      (∀ n ∈ (w2.storeOf r).notes,
        (decField (.random (cexWorld.rng + 1)) n.metaCipher n.metaIv).isSome ∧
        (decField (.random (cexWorld.rng + 1)) n.contentCipher n.contentIv).isSome)) ∧
    (∀ e w2, changeVaultPassword "vault_A" "password-old" "password-new" cexWorld =
        (.error e, w2) →
      lookupA "vault_A" w2.databases = lookupA "vault_A" cexWorld.databases) :=
  claimC4_verify_before_commit "vault_A" "password-old" "password-new" cexWorld
    (by decide) (by decide)

end GullNotes
